import Mathlib

/-!
FixMyRoad report API (`src/index.js`)

A shallow embedding of the request handlers and of the start-up port
fallback of `src/index.js`, together with the properties of the
specification that were checked against it.

Conventions of the embedding.

* JavaScript numbers are `JsNum`: `NaN`, the two infinities, or a finite
  binary64 value carried as the rational it denotes.  Coercions and
  arithmetic round to the nearest binary64 value (`toBinary64`); the sign
  of zero is not represented.
* Request values are `JsVal`: the scalar values a JSON body or a parsed
  query string can hold, plus `obj` for a plain object.  Arrays are not
  represented.
* Text that is inspected character by character (numeric strings, paths)
  is a `List Char`.
* The document store and the filesystem are explicit state (`World`); the
  instants, random identifiers and injected failures a request observes
  are explicit arguments.  The casts of `reportSchema` are part of the
  store operations that write a document; a rejection decided by the
  database server itself (unavailability, a constraint of the `2dsphere`
  index) is an injected failure.
-/

namespace FixMyRoad

/-! ## JavaScript values -/

/-- A JavaScript number. -/
inductive JsNum where
  | nan
  | posInf
  | negInf
  | fin (q : ℚ)
  deriving DecidableEq

/-- The rational `2 ^ e`. -/
def pow2 (e : Int) : ℚ :=
  if 0 ≤ e then ((2 ^ e.toNat : Nat) : ℚ) else 1 / ((2 ^ (-e).toNat : Nat) : ℚ)

/-- The number of binary digits of `n` (0 for 0), `n` being at most `fuel`. -/
def bitLength : Nat → Nat → Nat
  | 0, _ => 0
  | fuel + 1, n => if n = 0 then 0 else bitLength fuel (n / 2) + 1

/-- For `q > 0`, the exponent `e` with `2 ^ e ≤ q < 2 ^ (e + 1)`. -/
def floorLog2 (q : ℚ) : Int :=
  let e0 : Int := (bitLength q.num.natAbs q.num.natAbs : Int) - (bitLength q.den q.den : Int)
  if pow2 e0 ≤ q then e0 else e0 - 1

/-- The natural number nearest to a non-negative rational, the even one on
a tie. -/
def roundHalfEven (x : ℚ) : Nat :=
  let f := (Rat.floor x).toNat
  let twice := 2 * (x - f)
  if twice < 1 then f else if 1 < twice then f + 1 else if f % 2 = 0 then f else f + 1

/-- The binary64 number nearest to the real `q` (round to nearest, ties to
even): a multiple of `2 ^ (e - 52)` for the exponent `e` of `q`, at least
`-1022`; an infinity when the rounded value reaches `2 ^ 1024`. -/
def toBinary64 (q : ℚ) : JsNum :=
  if q = 0 then JsNum.fin 0
  else
    let a := if 0 < q then q else -q
    let e := max (floorLog2 a) (-1022)
    let ulp := pow2 (e - 52)
    let r := (roundHalfEven (a / ulp) : ℚ) * ulp
    if pow2 1024 ≤ r then (if 0 < q then JsNum.posInf else JsNum.negInf)
    else JsNum.fin (if 0 < q then r else -r)

namespace JsNum

/-- The integer `n` as a JavaScript number (exact up to `2 ^ 53`). -/
def ofNat (n : Nat) : JsNum := fin (n : ℚ)

/-- JavaScript `a <= b`: false as soon as one side is `NaN`. -/
def le : JsNum → JsNum → Bool
  | nan, _ => false
  | _, nan => false
  | negInf, _ => true
  | _, posInf => true
  | posInf, _ => false
  | _, negInf => false
  | fin a, fin b => decide (a ≤ b)

/-- JavaScript `a - b`. -/
def sub : JsNum → JsNum → JsNum
  | nan, _ => nan
  | _, nan => nan
  | posInf, posInf => nan
  | negInf, negInf => nan
  | posInf, _ => posInf
  | negInf, _ => negInf
  | fin _, posInf => negInf
  | fin _, negInf => posInf
  | fin a, fin b => toBinary64 (a - b)

/-- Sign of a rational as an infinity, `NaN` for zero: the product of an
infinity with a finite number of that sign. -/
def infTimes (positive : Bool) (q : ℚ) : JsNum :=
  if q = 0 then nan
  else if (0 < q) = positive then posInf else negInf

/-- JavaScript `a * b`. -/
def mul : JsNum → JsNum → JsNum
  | nan, _ => nan
  | _, nan => nan
  | posInf, posInf => posInf
  | negInf, negInf => posInf
  | posInf, negInf => negInf
  | negInf, posInf => negInf
  | posInf, fin b => infTimes true b
  | negInf, fin b => infTimes false b
  | fin a, posInf => infTimes true a
  | fin a, negInf => infTimes false a
  | fin a, fin b => toBinary64 (a * b)

/-- `Math.max(a, b)`: `NaN` if either argument is `NaN`. -/
def max (a b : JsNum) : JsNum :=
  match a, b with
  | nan, _ => nan
  | _, nan => nan
  | a, b => if le a b then b else a

/-- `Math.min(a, b)`: `NaN` if either argument is `NaN`. -/
def min (a b : JsNum) : JsNum :=
  match a, b with
  | nan, _ => nan
  | _, nan => nan
  | a, b => if le a b then a else b

/-- The natural number a JavaScript number denotes, when it is a finite
non-negative integer. -/
def toNat? : JsNum → Option Nat
  | fin q => if q.den = 1 ∧ 0 ≤ q.num then some q.num.toNat else none
  | _ => none

end JsNum

/-- A value of a request body or of a parsed query string.  A `num` holds a
number as `JSON.parse` delivers it, a binary64 value. -/
inductive JsVal where
  | undefined
  | null
  | bool (b : Bool)
  | num (n : JsNum)
  | str (s : List Char)
  | obj
  deriving DecidableEq

namespace JsVal

/-- `v == null`: true for `null` and `undefined` only. -/
def looseNull : JsVal → Bool
  | undefined => true
  | null => true
  | _ => false

/-- `v ?? d`. -/
def nullish (v d : JsVal) : JsVal :=
  if v.looseNull then d else v

/-- A destructuring default `{ x = d }`: applies to `undefined` only. -/
def orDefault (v d : JsVal) : JsVal :=
  match v with
  | undefined => d
  | v => v

/-- JavaScript truthiness (`if (v)`). -/
def truthy : JsVal → Bool
  | undefined => false
  | null => false
  | bool b => b
  | num JsNum.nan => false
  | num (JsNum.fin q) => decide (q ≠ 0)
  | num _ => true
  | str s => !s.isEmpty
  | obj => true

end JsVal

/-! ## `Number(string)` -/

/-- Code points of `StrWhiteSpaceChar` (white space and line terminators). -/
def isStrWhiteSpaceChar (c : Char) : Bool :=
  let n := c.toNat
  n = 0x9 || n = 0xA || n = 0xB || n = 0xC || n = 0xD || n = 0x20 || n = 0xA0
    || n = 0x1680 || (0x2000 ≤ n && n ≤ 0x200A) || n = 0x2028 || n = 0x2029
    || n = 0x202F || n = 0x205F || n = 0x3000 || n = 0xFEFF

/-- Removes leading and trailing white space. -/
def trimWhiteSpace (s : List Char) : List Char :=
  ((s.dropWhile isStrWhiteSpaceChar).reverse.dropWhile isStrWhiteSpaceChar).reverse

/-- Value of a digit in the given radix (letters are case-insensitive). -/
def digitValue? (radix : Nat) (c : Char) : Option Nat :=
  let n := c.toNat
  let v : Option Nat :=
    if 48 ≤ n ∧ n ≤ 57 then some (n - 48)
    else if 97 ≤ n ∧ n ≤ 102 then some (n - 87)
    else if 65 ≤ n ∧ n ≤ 70 then some (n - 55)
    else none
  match v with
  | some d => if d < radix then some d else none
  | none => none

/-- Reads a non-empty string made only of digits of the radix. -/
def readDigits (radix : Nat) (s : List Char) : Option Nat :=
  if s.isEmpty then none
  else s.foldl (fun acc c =>
    match acc, digitValue? radix c with
    | some a, some d => some (radix * a + d)
    | _, _ => none) (some 0)

/-- Whether the character is a decimal digit. -/
def isDecimalDigit (c : Char) : Bool := (digitValue? 10 c).isSome

/-- Value of a string of decimal digits (0 for the empty string). -/
def decimalValue (s : List Char) : Nat :=
  s.foldl (fun acc c => 10 * acc + (c.toNat - 48)) 0

/-- The rational `m * 10 ^ e`. -/
def scale10 (m : Nat) (e : Int) : ℚ :=
  if 0 ≤ e then ((m * 10 ^ e.toNat : Nat) : ℚ) else mkRat m (10 ^ (-e).toNat)

/-- An `ExponentPart` that extends to the end of the string, or nothing:
`none` when what is left is neither. -/
def readExponent (s : List Char) : Option Int :=
  match s with
  | [] => some 0
  | c :: rest =>
    if c = 'e' ∨ c = 'E' then
      match rest with
      | '+' :: ds => (readDigits 10 ds).map fun n => (n : Int)
      | '-' :: ds => (readDigits 10 ds).map fun n => -(n : Int)
      | ds => (readDigits 10 ds).map fun n => (n : Int)
    else none

/-- `StrUnsignedDecimalLiteral`: `Infinity`, or digits with an optional
fraction and an optional exponent. -/
def readUnsignedDecimal (s : List Char) : JsNum :=
  if s = "Infinity".toList then JsNum.posInf
  else
    let ip := s.takeWhile isDecimalDigit
    let r := s.dropWhile isDecimalDigit
    let fp := match r with
      | '.' :: t => t.takeWhile isDecimalDigit
      | _ => []
    let r2 := match r with
      | '.' :: t => t.dropWhile isDecimalDigit
      | r => r
    if ip.isEmpty ∧ fp.isEmpty then JsNum.nan
    else
      match readExponent r2 with
      | some e => toBinary64 (scale10 (decimalValue (ip ++ fp)) (e - fp.length))
      | none => JsNum.nan

/-- Negation of a JavaScript number. -/
def JsNum.neg : JsNum → JsNum
  | JsNum.nan => JsNum.nan
  | JsNum.posInf => JsNum.negInf
  | JsNum.negInf => JsNum.posInf
  | JsNum.fin q => JsNum.fin (-q)

/-- `StringToNumber`: the binary64 value of a string, `NaN` when the string
is not a `StringNumericLiteral`. -/
def stringToNumber (s : List Char) : JsNum :=
  match trimWhiteSpace s with
  | [] => JsNum.fin 0
  | '0' :: 'x' :: ds | '0' :: 'X' :: ds =>
    match readDigits 16 ds with
    | some n => toBinary64 n
    | none => JsNum.nan
  | '0' :: 'o' :: ds | '0' :: 'O' :: ds =>
    match readDigits 8 ds with
    | some n => toBinary64 n
    | none => JsNum.nan
  | '0' :: 'b' :: ds | '0' :: 'B' :: ds =>
    match readDigits 2 ds with
    | some n => toBinary64 n
    | none => JsNum.nan
  | '+' :: t => readUnsignedDecimal t
  | '-' :: t => (readUnsignedDecimal t).neg
  | t => readUnsignedDecimal t

/-- `Number(v)`. -/
def toNumber : JsVal → JsNum
  | JsVal.undefined => JsNum.nan
  | JsVal.null => JsNum.fin 0
  | JsVal.bool b => if b then JsNum.fin 1 else JsNum.fin 0
  | JsVal.num n => n
  | JsVal.str s => stringToNumber s
  | JsVal.obj => JsNum.nan

end FixMyRoad


namespace FixMyRoad

/-! ## POSIX `path` functions used by the upload and delete code -/

/-- The separator-delimited pieces of a path (`path.split("/")`). -/
def splitOnSlash : List Char → List (List Char)
  | [] => [[]]
  | c :: cs =>
    if c = '/' then [] :: splitOnSlash cs
    else
      match splitOnSlash cs with
      | [] => [[c]]
      | seg :: rest => (c :: seg) :: rest

/-- `path.basename(path)`: the last portion of the path, trailing
separators ignored. -/
def basename (path : List Char) : List Char :=
  ((path.reverse.dropWhile (fun c => c = '/')).takeWhile (fun c => c ≠ '/')).reverse

/-- `path.extname(path)`: from the last `.` of the last portion of the path
to its end; empty when there is no `.`, when the only `.` is the first
character of that portion, or when the portion is `..`. -/
def extname (path : List Char) : List Char :=
  let base := basename path
  let afterDot := (base.reverse.takeWhile (fun c => c ≠ '.')).reverse
  let uptoDot := base.reverse.dropWhile (fun c => c ≠ '.')
  match uptoDot with
  | [] => []
  | _ :: beforeDot =>
    if beforeDot = [] ∨ base = ['.', '.'] then [] else '.' :: afterDot

/-- One segment of `normalizeString`, on the stack of kept segments (last
kept segment first): empty and `.` segments are dropped, `..` removes the
last kept segment, or is kept when nothing can be removed and the path is
relative. -/
def normalizeStep (allowAboveRoot : Bool) (kept : List (List Char)) (seg : List Char) :
    List (List Char) :=
  if seg = [] ∨ seg = ['.'] then kept
  else if seg = ['.', '.'] then
    match kept with
    | [] => if allowAboveRoot then [seg] else []
    | top :: rest =>
      if top = ['.', '.'] then (if allowAboveRoot then seg :: kept else kept) else rest
  else seg :: kept

/-- `path.normalize(path)`. -/
def normalize (path : List Char) : List Char :=
  if path = [] then ['.']
  else
    let isAbsolute := path.head? = some '/'
    let trailingSeparator := path.getLast? = some '/'
    let kept := ((splitOnSlash path).foldl (normalizeStep (!isAbsolute)) []).reverse
    let res := List.intercalate ['/'] kept
    if res = [] then
      if isAbsolute then ['/'] else if trailingSeparator then ['.', '/'] else ['.']
    else
      (if isAbsolute then ['/'] else []) ++ res ++ (if trailingSeparator then ['/'] else [])

/-- `path.join(...parts)`: the non-empty parts joined by `/`, normalized. -/
def join (parts : List (List Char)) : List Char :=
  let used := parts.filter (fun p => p ≠ [])
  if used = [] then ['.'] else normalize (List.intercalate ['/'] used)

/-- `UPLOADS_DIR = path.join(process.cwd(), "uploads")`. -/
def UPLOADS_DIR (cwd : List Char) : List Char :=
  join [cwd, ['u', 'p', 'l', 'o', 'a', 'd', 's']]

end FixMyRoad

namespace FixMyRoad

/-! ## Data model (`reportSchema`) and state -/

/-- The content of a `String` path of a stored document: literal text, or
the decimal notation `String(n)` of a number that was cast to a string
(kept as the number; the digits of the notation are not modelled). -/
inductive Text where
  | lit (s : List Char)
  | ofNumber (n : JsNum)
  deriving DecidableEq

/-- An entry of `comments`: `{ text, at }`. -/
structure Comment where
  text : Option Text
  atTime : Nat
  deriving DecidableEq

/-- The `location` sub-document. -/
structure Location where
  type : String
  coordinates : List JsNum
  deriving DecidableEq

/-- A stored report: `String` paths hold text or null, `severity` a number
or null; `createdAt` and `updatedAt` are the store-managed timestamps. -/
structure Report where
  id : List Char
  description : Option Text
  severity : Option JsNum
  reporter : Option Text
  image : Option (List Char)
  status : Option Text
  comments : List Comment
  location : Location
  createdAt : Nat
  updatedAt : Nat
  deriving DecidableEq

/-- The report collection (in storage order) and the regular files of the
filesystem (by absolute path). -/
structure World where
  reports : List Report
  files : List (List Char)
  deriving DecidableEq

/-- What a request observes of its environment: the clock, the identifiers
drawn by `nanoid(6)` and `nanoid(10)`, and the failures injected into it
(`storeFault = some k`: the database rejects the store operation number `k`
of the request; `removeFault`: `fs.remove` rejects). -/
structure Env where
  now : Nat
  nanoid6 : List Char
  nanoid10 : List Char
  storeFault : Option Nat
  removeFault : Bool

/-- An exception or promise rejection. -/
inductive Thrown where
  | storeError
  | castError
  | fsError
  | fileTooLarge
  deriving DecidableEq

/-- A JSON response body. -/
inductive Body where
  | error (msg : String)
  | report (r : Report)
  | list (total : Nat) (page limit : JsNum) (reports : List Report)
  | ok
  | near (total : Nat) (reports : List Report)
  | stats (total open_ inProgress fixed : Nat)
  deriving DecidableEq

/-- An HTTP response. -/
structure Response where
  status : Nat
  body : Body
  deriving DecidableEq

/-- How the handling of a request ends: with a response written by the
handler, or with a failure that no code of the route catches (it is left to
the framework and the runtime). -/
inductive Outcome where
  | responded (r : Response)
  | uncaught (e : Thrown)
  deriving DecidableEq

/-- The `catch (err)` block shared by the guarded handlers: a failure of
the `try` block is answered with 500 and `{ error: "internal" }`, and the
state is the one before the request. -/
def tryCatch (w : World) (body : Except Thrown (Response × World)) : Outcome × World :=
  match body with
  | .ok (r, w') => (Outcome.responded r, w')
  | .error _ => (Outcome.responded ⟨500, Body.error "internal"⟩, w)

/-- An `async` handler without `try`: a failure leaves it as a rejected
promise. -/
def noCatch (w : World) (body : Except Thrown (Response × World)) : Outcome × World :=
  match body with
  | .ok (r, w') => (Outcome.responded r, w')
  | .error e => (Outcome.uncaught e, w)

/-! ## Store and filesystem operations -/

/-- The store operation number `k` of a request: its result, or a
rejection when a failure is injected there. -/
def storeOp {α : Type} (env : Env) (k : Nat) (result : α) : Except Thrown α :=
  if env.storeFault = some k then .error Thrown.storeError else .ok result

/-- The cast of a value to a `String` path of the schema: null stays null,
a string is kept, a number or a boolean becomes its `toString()`, a plain
object is refused. -/
def castString : JsVal → Except Thrown (Option Text)
  | JsVal.undefined => .ok none
  | JsVal.null => .ok none
  | JsVal.str s => .ok (some (Text.lit s))
  | JsVal.num n => .ok (some (Text.ofNumber n))
  | JsVal.bool b => .ok (some (Text.lit (if b then "true" else "false").toList))
  | JsVal.obj => .error Thrown.castError

/-- The cast of a number to a `Number` path of the schema: `NaN` is
refused. -/
def castNumber (n : JsNum) : Except Thrown JsNum :=
  if n = JsNum.nan then .error Thrown.castError else .ok n

/-- The cast of a number or null to a `Number` path: null stays null. -/
def castNullableNumber : Option JsNum → Except Thrown (Option JsNum)
  | none => .ok none
  | some n => (castNumber n).map some

/-- The cast of an array to a `[Number]` path: each element is cast. -/
def castNumbers : List JsNum → Except Thrown (List JsNum)
  | [] => .ok []
  | n :: ns => do
    let n ← castNumber n
    let ns ← castNumbers ns
    pure (n :: ns)

/-- The object literal `POST /reports` passes to `Report.create`. -/
structure ReportDraft where
  id : List Char
  description : JsVal
  severity : Option JsNum
  reporter : JsVal
  image : Option (List Char)
  status : List Char
  comments : List Comment
  coordinates : List JsNum

/-- The document `reportSchema` makes of a draft at instant `now`, or the
cast that fails. -/
def castDraft (now : Nat) (d : ReportDraft) : Except Thrown Report := do
  let description ← castString d.description
  let severity ← castNullableNumber d.severity
  let reporter ← castString d.reporter
  let coordinates ← castNumbers d.coordinates
  pure
    { id := d.id
      description := description
      severity := severity
      reporter := reporter
      image := d.image
      status := some (Text.lit d.status)
      comments := d.comments
      location := { type := "Point", coordinates := coordinates }
      createdAt := now
      updatedAt := now }

/-- `Report.create(draft)` as store operation number `k`: the draft is cast
against the schema, then inserted. -/
def Report.create (env : Env) (k : Nat) (d : ReportDraft) : Except Thrown Report := do
  let doc ← castDraft env.now d
  storeOp env k doc

/-- `Report.findOne({ id })`: the first report with that `id`. -/
def findOne (rs : List Report) (id : List Char) : Option Report :=
  rs.find? (fun r => r.id = id)

/-- Writes back the document `findOne` returned: the first report with that
`id` is replaced. -/
def saveFirst (id : List Char) (r' : Report) : List Report → List Report
  | [] => []
  | r :: rs => if r.id = id then r' :: rs else r :: saveFirst id r' rs

/-- The collection after `Report.findOneAndDelete({ id })`: the first
report with that `id` is removed. -/
def deleteFirst (id : List Char) : List Report → List Report
  | [] => []
  | r :: rs => if r.id = id then rs else r :: deleteFirst id rs

/-- `.sort({ createdAt: -1 })`: most recent first. -/
def sortByCreatedDesc (rs : List Report) : List Report :=
  rs.insertionSort (fun a b => b.createdAt ≤ a.createdAt)

/-- `Report.find({}).sort({ createdAt: -1 }).skip(skip).limit(limit)`.  The
store accepts `skip` and `limit` that are non-negative integers and rejects
the query otherwise. -/
def findPage (env : Env) (k : Nat) (rs : List Report) (skip limit : JsNum) :
    Except Thrown (List Report) :=
  match skip.toNat?, limit.toNat? with
  | some s, some l => storeOp env k (((sortByCreatedDesc rs).drop s).take l)
  | _, _ => .error Thrown.storeError

/-- `Report.countDocuments({ status })`. -/
def countStatus (rs : List Report) (status : String) : Nat :=
  rs.countP (fun r => r.status = some (Text.lit status.toList))

/-- Whether path `f` is `p` or lies below the directory `p`. -/
def isAtOrBelow (p f : List Char) : Bool :=
  f = p || (if p.getLast? = some '/' then p else p ++ ['/']).isPrefixOf f

/-- `fs.remove(p)`: removes the file or directory `p` with all it holds;
nothing happens when `p` does not exist. -/
def fsRemove (files : List (List Char)) (p : List Char) : List (List Char) :=
  files.filter (fun f => !isAtOrBelow p f)

/-! ## Upload middleware (`multer.diskStorage`, `upload.single("image")`) -/

/-- The file part of a multipart request. -/
structure IncomingFile where
  originalname : Option (List Char)
  size : Nat

/-- What the handler sees as `req.file`. -/
structure UploadedFile where
  filename : List Char
  deriving DecidableEq

/-- The `filename` callback of the disk storage:
`Date.now() + "-" + nanoid(6) + path.extname(file.originalname || "")`. -/
def storageFilename (now : Nat) (nanoid6 : List Char) (file : IncomingFile) : List Char :=
  let ext := extname (match file.originalname with
    | some n => if n = [] then [] else n
    | none => [])
  Nat.toDigits 10 now ++ ['-'] ++ nanoid6 ++ ext

/-- The size ceiling `5 * 1024 * 1024`. -/
def fileSizeLimit : Nat := 5 * 1024 * 1024

/-- `upload.single("image")`: no file part leaves `req.file` unset; a file
above the ceiling is refused; otherwise the file is written at
`path.join(destination, filename)` and described in `req.file`. -/
def uploadSingle (cwd : List Char) (env : Env) (w : World) (file : Option IncomingFile) :
    Except Thrown (Option UploadedFile × World) :=
  match file with
  | none => .ok (none, w)
  | some f =>
    if fileSizeLimit < f.size then .error Thrown.fileTooLarge
    else
      let filename := storageFilename env.now env.nanoid6 f
      let stored := join [UPLOADS_DIR cwd, filename]
      .ok (some ⟨filename⟩, { w with files := stored :: w.files.filter (fun p => p ≠ stored) })

end FixMyRoad

namespace FixMyRoad

/-! ## Request handlers -/

/-- The fields `POST /reports` reads from `req.body`. -/
structure CreateBody where
  lat : JsVal
  lng : JsVal
  description : JsVal
  severity : JsVal
  reporter : JsVal

/-- The prefix of the public path of an upload, `"/uploads/"`. -/
def uploadsUrlPrefix : List Char := ['/', 'u', 'p', 'l', 'o', 'a', 'd', 's', '/']

/-- The handler of `POST /reports`, after the upload middleware has set
`req.file`. -/
def createReport (env : Env) (w : World) (body : CreateBody) (file : Option UploadedFile) :
    Outcome × World :=
  tryCatch w <|
    let lat := body.lat
    let lng := body.lng
    let description := body.description.orDefault (JsVal.str [])
    let severity := body.severity.orDefault JsVal.null
    let reporter := body.reporter.orDefault (JsVal.str [])
    if lat.looseNull || lng.looseNull then
      .ok (⟨400, Body.error "lat and lng are required"⟩, w)
    else
      let imagePath := file.map (fun f => uploadsUrlPrefix ++ f.filename)
      (Report.create env 0
        { id := env.nanoid10
          description := description
          severity := if severity ≠ JsVal.null then some (toNumber severity) else none
          reporter := reporter
          image := imagePath
          status := "open".toList
          comments := []
          coordinates := [toNumber lng, toNumber lat] }).map fun doc =>
        (⟨201, Body.report doc⟩, { w with reports := w.reports ++ [doc] })

/-- The route `POST /reports`: the upload middleware, then the handler.  A
failure of the middleware never reaches the handler. -/
def postReports (cwd : List Char) (env : Env) (w : World) (body : CreateBody)
    (file : Option IncomingFile) : Outcome × World :=
  match uploadSingle cwd env w file with
  | .error e => (Outcome.uncaught e, w)
  | .ok (reqFile, w') => createReport env w' body reqFile

/-- The query of `GET /reports`. -/
structure ListQuery where
  page : JsVal
  limit : JsVal

/-- The page number: `Math.max(1, Number(req.query.page ?? 1))`. -/
def listPage (q : ListQuery) : JsNum :=
  JsNum.max (JsNum.fin 1) (toNumber (q.page.nullish (JsVal.num (JsNum.fin 1))))

/-- The page size:
`Math.max(1, Math.min(100, Number(req.query.limit ?? 50)))`. -/
def listLimit (q : ListQuery) : JsNum :=
  JsNum.max (JsNum.fin 1)
    (JsNum.min (JsNum.fin 100) (toNumber (q.limit.nullish (JsVal.num (JsNum.fin 50)))))

/-- The handler of `GET /reports`. -/
def listReports (env : Env) (w : World) (q : ListQuery) : Outcome × World :=
  tryCatch w <| do
    let p := listPage q
    let l := listLimit q
    let total ← storeOp env 0 w.reports.length
    let reports ← findPage env 1 w.reports ((p.sub (JsNum.fin 1)).mul l) l
    pure (⟨200, Body.list total p l reports⟩, w)

/-- The handler of `GET /reports/:id`. -/
def getReport (env : Env) (w : World) (id : List Char) : Outcome × World :=
  noCatch w <| do
    let r ← storeOp env 0 (findOne w.reports id)
    match r with
    | none => pure (⟨404, Body.error "not_found"⟩, w)
    | some r => pure (⟨200, Body.report r⟩, w)

/-- The fields `PUT /reports/:id` reads from `req.body`. -/
structure UpdateBody where
  status : JsVal
  severity : JsVal
  comment : JsVal

/-- The assignments of `PUT /reports/:id` on the found document, each cast
by the schema; a cast that fails makes `save()` reject. -/
def applyUpdate (now : Nat) (body : UpdateBody) (r : Report) : Except Thrown Report := do
  let r ← if body.status.truthy then
      (castString body.status).map fun s => { r with status := s }
    else pure r
  let r ← if body.severity ≠ JsVal.undefined then
      (castNumber (toNumber body.severity)).map fun n => { r with severity := some n }
    else pure r
  let r ← if body.comment.truthy then
      (castString body.comment).map fun t =>
        { r with comments := r.comments ++ [{ text := t, atTime := now }] }
    else pure r
  pure r

/-- The handler of `PUT /reports/:id`.  `save()` validates the casts and
stamps `updatedAt` when the document was modified. -/
def updateReport (env : Env) (w : World) (id : List Char) (body : UpdateBody) :
    Outcome × World :=
  tryCatch w <| do
    let r ← storeOp env 0 (findOne w.reports id)
    match r with
    | none => pure (⟨404, Body.error "not_found"⟩, w)
    | some r =>
      let r' ← applyUpdate env.now body r
      let saved ← storeOp env 1 (if r' = r then r else { r' with updatedAt := env.now })
      pure (⟨200, Body.report saved⟩, { w with reports := saveFirst id saved w.reports })

/-- The path `DELETE /reports/:id` hands to `fs.remove` for a stored
`image`: `path.join(UPLOADS_DIR, path.basename(r.image))`. -/
def imgPath (cwd : List Char) (image : List Char) : List Char :=
  join [UPLOADS_DIR cwd, basename image]

/-- The handler of `DELETE /reports/:id`.  A rejection of `fs.remove` is
swallowed by `.catch(() => {})`. -/
def deleteReport (cwd : List Char) (env : Env) (w : World) (id : List Char) :
    Outcome × World :=
  tryCatch w <| do
    let r ← storeOp env 0 (findOne w.reports id)
    match r with
    | none => pure (⟨404, Body.error "not_found"⟩, w)
    | some r =>
      let w := { w with reports := deleteFirst id w.reports }
      let w := match r.image with
        | none => w
        | some image =>
          if image = [] then w
          else if env.removeFault then w
          else { w with files := fsRemove w.files (imgPath cwd image) }
      pure (⟨200, Body.ok⟩, w)

/-- The query of `GET /near`. -/
structure NearQuery where
  lat : JsVal
  lng : JsVal
  radius : JsVal

/-- The handler of `GET /near`.  The geospatial selection and ordering of
the store's `$near` operator is the argument `near`, given the collection,
the point `[lng, lat]` and the maximal distance. -/
def nearReports (near : List Report → JsNum → JsNum → JsNum → List Report)
    (env : Env) (w : World) (q : NearQuery) : Outcome × World :=
  tryCatch w <|
    let radius := q.radius.orDefault (JsVal.num (JsNum.fin 200))
    if q.lat.looseNull || q.lng.looseNull then
      .ok (⟨400, Body.error "lat and lng are required"⟩, w)
    else
      (storeOp env 0 (near w.reports (toNumber q.lng) (toNumber q.lat) (toNumber radius))).map
        fun docs => (⟨200, Body.near docs.length docs⟩, w)

/-- The handler of `GET /stats`: four counts awaited together. -/
def stats (env : Env) (w : World) : Outcome × World :=
  noCatch w <| do
    let total ← storeOp env 0 w.reports.length
    let open_ ← storeOp env 1 (countStatus w.reports "open")
    let inProgress ← storeOp env 2 (countStatus w.reports "in_progress")
    let fixed ← storeOp env 3 (countStatus w.reports "fixed")
    pure (⟨200, Body.stats total open_ inProgress fixed⟩, w)

/-! ## Start-up port fallback (`start`) -/

/-- What `app.listen(port)` leads to: the `listening` callback, with the
port of `server.address()` when that is an address object, or an `error`
event with its code. -/
inductive BindResult where
  | listening (addrPort : Option Nat)
  | error (code : String)

/-- A line written to the console by `start`. -/
inductive LogLine where
  | running (actualPort : Nat)
  | inUse (port next : Nat)
  | noPermission (port next : Nat)
  | fatal (code : String)
  deriving DecidableEq

/-- How a run of `start` stands: listening on a port, exited with a code,
or still retrying from a port. -/
inductive StartState where
  | listeningOn (port : Nat)
  | exited (code : Nat)
  | retrying (port : Nat)
  deriving DecidableEq

/-- A run of `start`: the ports handed to `app.listen` in order, the console
lines in order, and where the run stands. -/
structure StartRun where
  tried : List Nat
  log : List LogLine
  state : StartState
  deriving DecidableEq

/-- The function `start(port)`, followed for at most `fuel` calls of
`app.listen`. -/
def start (bind : Nat → BindResult) : Nat → Nat → StartRun
  | 0, port => ⟨[], [], StartState.retrying port⟩
  | fuel + 1, port =>
    match bind port with
    | BindResult.listening addrPort =>
      ⟨[port], [LogLine.running (addrPort.getD port)], StartState.listeningOn port⟩
    | BindResult.error code =>
      if code = "EADDRINUSE" then
        let rest := start bind fuel (port + 1)
        ⟨port :: rest.tried, LogLine.inUse port (port + 1) :: rest.log, rest.state⟩
      else if code = "EACCES" then
        let rest := start bind fuel (port + 1)
        ⟨port :: rest.tried, LogLine.noPermission port (port + 1) :: rest.log, rest.state⟩
      else
        ⟨[port], [LogLine.fatal code], StartState.exited 1⟩

end FixMyRoad

namespace FixMyRoad

/-! ## Auxiliary definitions of the statements -/

/-- The draft `POST /reports` hands to `Report.create` for a body with
coordinates and an optional uploaded file. -/
def draftOf (env : Env) (body : CreateBody) (file : Option UploadedFile) : ReportDraft :=
  { id := env.nanoid10
    description := body.description.orDefault (JsVal.str [])
    severity := if body.severity.orDefault JsVal.null ≠ JsVal.null then
        some (toNumber (body.severity.orDefault JsVal.null)) else none
    reporter := body.reporter.orDefault (JsVal.str [])
    image := file.map (fun f => uploadsUrlPrefix ++ f.filename)
    status := "open".toList
    comments := []
    coordinates := [toNumber body.lng, toNumber body.lat] }

/-- The report `POST /reports` stores for coordinates `lng`, `lat` alone. -/
def bareReport (env : Env) (lng lat : JsNum) : Report :=
  { id := env.nanoid10
    description := some (Text.lit [])
    severity := none
    reporter := some (Text.lit [])
    image := none
    status := some (Text.lit "open".toList)
    comments := []
    location := { type := "Point", coordinates := [lng, lat] }
    createdAt := env.now
    updatedAt := env.now }

end FixMyRoad

namespace FixMyRoad

/-! ## Sample data for the instances of the statements -/

/-- An environment without injected failure. -/
def sampleEnv : Env :=
  { now := 1700000000000
    nanoid6 := "aB3_-z".toList
    nanoid10 := "Vq8-xK2_mT".toList
    storeFault := none
    removeFault := false }

/-- A report with the given `id`, `status`, `image` and creation instant. -/
def sampleReport (id status : String) (image : Option String) (createdAt : Nat) : Report :=
  { id := id.toList
    description := some (Text.lit "pothole".toList)
    severity := some (JsNum.fin 3)
    reporter := some (Text.lit "ana".toList)
    image := image.map String.toList
    status := some (Text.lit status.toList)
    comments := [{ text := some (Text.lit "seen".toList), atTime := createdAt + 1 }]
    location := { type := "Point", coordinates := [JsNum.fin 77, JsNum.fin 12] }
    createdAt := createdAt
    updatedAt := createdAt + 1 }

/-- Three reports, one of them with a status outside the three buckets. -/
def sampleWorld : World :=
  { reports :=
      [ sampleReport "a" "open" none 10,
        sampleReport "b" "fixed" none 30,
        sampleReport "c" "wontfix" none 20 ]
    files := [] }

/-- A collection of `2 ^ 54` copies of one report. -/
def crowdedWorld : World :=
  { reports := List.replicate (2 ^ 54) (sampleReport "a" "open" none 10)
    files := [] }

/-- Ports 4000 and 4001 are taken, 4002 is free. -/
def sampleBind (port : Nat) : BindResult :=
  if port = 4000 then BindResult.error "EADDRINUSE"
  else if port = 4001 then BindResult.error "EACCES"
  else BindResult.listening (some port)

/-- Port 4000 is taken and port 4001 fails with another error. -/
def sampleBindFatal (port : Nat) : BindResult :=
  if port = 4000 then BindResult.error "EADDRINUSE"
  else BindResult.error "ENOTSUP"

end FixMyRoad

namespace FixMyRoad

/-- The alphabet `nanoid` draws its characters from (`A-Za-z0-9_-`). -/
def urlAlphabet : List Char :=
  "useandom-26T198340PX75pxJACKVERYMINDBUSHWOLF_GQZbfghjklqvwyzrict".toList

/-- A photo within the size ceiling. -/
def sampleFile : IncomingFile :=
  { originalname := some "road.hole.JPG".toList, size := 204800 }

/-- The report the sample create request stores with the sample photo. -/
def samplePhotoReport : Report :=
  { id := "Vq8-xK2_mT".toList
    description := some (Text.lit [])
    severity := none
    reporter := some (Text.lit [])
    image := some "/uploads/1700000000000-aB3_-z.JPG".toList
    status := some (Text.lit "open".toList)
    comments := []
    location :=
      { type := "Point", coordinates := [toBinary64 (776 / 10), toBinary64 (129 / 10)] }
    createdAt := 1700000000000
    updatedAt := 1700000000000 }

/-- A later state: the report with the photo stands between two others, and
its file next to two other files. -/
def laterWorld : World :=
  { reports :=
      [ sampleReport "a" "open" none 10, samplePhotoReport, sampleReport "c" "wontfix" none 20 ]
    files :=
      [ "/srv/app/index.js".toList, "/srv/app/uploads/1700000000000-aB3_-z.JPG".toList,
        "/srv/app/uploads/1-abcdef.png".toList ] }

/-- A create request body with coordinates only. -/
def sampleBody : CreateBody :=
  { lat := JsVal.str "12.9".toList
    lng := JsVal.str "77.6".toList
    description := JsVal.undefined
    severity := JsVal.undefined
    reporter := JsVal.undefined }

end FixMyRoad

namespace FixMyRoad

/-- A collection whose only report stores `".."` as its `image`, next to
files of the application directory, of the upload directory and of another
directory. -/
def dotDotWorld : World :=
  { reports := [sampleReport "x" "open" (some "..") 10]
    files := ["/srv/app/index.js".toList, "/srv/app/uploads/1-abcdef.png".toList,
      "/srv/other/keep.txt".toList] }

/-- A collection whose only report has a stored photo. -/
def photoWorld : World :=
  { reports := [sampleReport "p" "open" (some "/uploads/1-abcdef.png") 10]
    files := ["/srv/app/uploads/1-abcdef.png".toList] }

/-- An environment in which `fs.remove` rejects. -/
def removeFaultEnv : Env := { sampleEnv with removeFault := true }

/-- An environment in which the first store operation rejects. -/
def storeFaultEnv : Env := { sampleEnv with storeFault := some 0 }

end FixMyRoad

namespace FixMyRoad

/-- A path segment that names an entry: not empty, not `.`, not `..`, and
without separator. -/
def IsEntryName (s : List Char) : Prop :=
  s ≠ [] ∧ s ≠ ['.'] ∧ s ≠ ['.', '.'] ∧ ∀ c ∈ s, c ≠ '/'

end FixMyRoad

namespace FixMyRoad

/-! ## Checked properties -/

/-! ### Rounding to binary64 -/

theorem bitLength_spec (fuel : Nat) : ∀ n, n ≤ fuel →
    n < 2 ^ bitLength fuel n ∧ (n ≠ 0 → 2 ^ (bitLength fuel n - 1) ≤ n) := by
  induction fuel with
  | zero =>
    intro n hn
    have : n = 0 := by omega
    subst this
    simp [bitLength]
  | succ fuel ih =>
    intro n hn
    by_cases h0 : n = 0
    · subst h0; simp [bitLength]
    · obtain ⟨h1, h2⟩ := ih (n / 2) (by omega)
      simp only [bitLength, h0, if_false, Nat.add_sub_cancel]
      refine ⟨?_, fun _ => ?_⟩
      · rw [Nat.pow_succ]; omega
      · by_cases h3 : n / 2 = 0
        · simp [h3, bitLength]
          cases fuel <;> simp [bitLength] <;> omega
        · have := h2 h3
          obtain ⟨b, hb⟩ : ∃ b, bitLength fuel (n / 2) = b + 1 := by
            cases hbl : bitLength fuel (n / 2) with
            | zero => rw [hbl] at h1; simp at h1; omega
            | succ b => exact ⟨b, rfl⟩
          rw [hb] at this ⊢
          simp only [Nat.add_sub_cancel] at this
          rw [Nat.pow_succ]; omega

theorem pow2_natCast (k : Nat) : pow2 (k : Int) = ((2 ^ k : Nat) : ℚ) := by
  simp [pow2]

theorem pow2_neg (k : Nat) : pow2 (-(k : Int)) = 1 / ((2 ^ k : Nat) : ℚ) := by
  cases k with
  | zero => simp [pow2]
  | succ k =>
    have : ¬ (0 : Int) ≤ -((k + 1 : Nat) : Int) := by omega
    simp only [pow2, this, if_false]
    simp

theorem roundHalfEven_natCast (k : Nat) : roundHalfEven (k : ℚ) = k := by
  have hf : Rat.floor (k : ℚ) = (k : Int) := by
    have := Int.floor_natCast (α := ℚ) k
    simp [Rat.floor_def'] at this ⊢
  simp [roundHalfEven, hf]

theorem floorLog2_natCast (n : Nat) (hn : n ≠ 0) :
    floorLog2 (n : ℚ) = ((bitLength n n - 1 : Nat) : Int) ∧ 2 ^ (bitLength n n - 1) ≤ n
      ∧ n < 2 ^ bitLength n n ∧ 1 ≤ bitLength n n := by
  obtain ⟨h1, h2⟩ := bitLength_spec n n (Nat.le_refl n)
  have h2 := h2 hn
  have hpos : 1 ≤ bitLength n n := by
    rcases Nat.eq_zero_or_pos (bitLength n n) with h | h
    · rw [h] at h1; simp at h1; omega
    · exact h
  have hone : bitLength 1 1 = 1 := by decide
  have he0 : ((bitLength n n : Nat) : Int) - ((bitLength 1 1 : Nat) : Int)
      = ((bitLength n n - 1 : Nat) : Int) := by
    rw [hone]; omega
  refine ⟨?_, h2, h1, hpos⟩
  simp only [floorLog2, Rat.num_natCast, Int.natAbs_ofNat, Rat.den_natCast, he0, pow2_natCast]
  have : ((2 ^ (bitLength n n - 1) : Nat) : ℚ) ≤ (n : ℚ) := by exact_mod_cast h2
  rw [if_pos this]

theorem toBinary64_natCast (n : Nat) (hn : n ≤ 2 ^ 53) : toBinary64 (n : ℚ) = JsNum.fin n := by
  by_cases h0 : n = 0
  · subst h0; simp [toBinary64]
  by_cases h53 : n = 2 ^ 53
  · subst h53; decide!
  obtain ⟨hfl, hlow, hup, hpos⟩ := floorLog2_natCast n h0
  have hL : bitLength n n - 1 ≤ 52 := by
    by_contra hcon
    have h53' : 53 ≤ bitLength n n - 1 := by omega
    have : 2 ^ 53 ≤ 2 ^ (bitLength n n - 1) := Nat.pow_le_pow_right (by decide) h53'
    omega
  obtain ⟨j, hj⟩ : ∃ j : Nat, (bitLength n n - 1) + j = 52 := ⟨52 - (bitLength n n - 1), by omega⟩
  have hnq : (0 : ℚ) < (n : ℚ) := by exact_mod_cast Nat.pos_of_ne_zero h0
  have hne : (n : ℚ) ≠ 0 := ne_of_gt hnq
  have hmax : max (((bitLength n n - 1 : Nat) : Int)) (-1022) - 52 = -(j : Int) := by
    rw [max_eq_left (by omega)]; omega
  have hulp : pow2 (-(j : Int)) = 1 / ((2 ^ j : Nat) : ℚ) := pow2_neg j
  have hpow : ((2 ^ j : Nat) : ℚ) ≠ 0 := by positivity
  have hdiv : (n : ℚ) / (1 / ((2 ^ j : Nat) : ℚ)) = ((n * 2 ^ j : Nat) : ℚ) := by
    push_cast; field_simp
  have hback : ((n * 2 ^ j : Nat) : ℚ) * (1 / ((2 ^ j : Nat) : ℚ)) = (n : ℚ) := by
    push_cast; field_simp
  have hbig : ¬ pow2 1024 ≤ (n : ℚ) := by
    have h1 : pow2 1024 = ((2 ^ 1024 : Nat) : ℚ) := pow2_natCast 1024
    rw [h1, not_le]
    have : n < 2 ^ 1024 := lt_of_le_of_lt hn (by norm_num)
    exact_mod_cast this
  simp only [toBinary64, hne, if_false, hnq, if_true, hfl, hmax, hulp, hdiv, roundHalfEven_natCast,
    hback, hbig]

/-! ### Creating a report -/

/-- C1: a create request whose body lacks `lat` or `lng` (absent or null) is
answered 400 with `{ error: "lat and lng are required" }` and the state,
hence the report collection, is left as it was; through the whole route the
collection is unchanged too, whatever file accompanies the request. -/
theorem createReport_missing_coordinate (cwd : List Char) (env : Env) (w : World)
    (body : CreateBody) (reqFile : Option UploadedFile) (file : Option IncomingFile)
    (h : body.lat = JsVal.undefined ∨ body.lat = JsVal.null ∨
      body.lng = JsVal.undefined ∨ body.lng = JsVal.null) :
    createReport env w body reqFile
        = (Outcome.responded ⟨400, Body.error "lat and lng are required"⟩, w)
      ∧ (postReports cwd env w body file).2.reports = w.reports := by
  have hnull : (body.lat.looseNull || body.lng.looseNull) = true := by
    rcases h with h | h | h | h <;> simp [h, JsVal.looseNull]
  have hcreate : ∀ (w' : World) (f : Option UploadedFile), createReport env w' body f
      = (Outcome.responded ⟨400, Body.error "lat and lng are required"⟩, w') := by
    intro w' f
    simp [createReport, hnull, tryCatch]
  refine ⟨hcreate w reqFile, ?_⟩
  unfold postReports
  cases hup : uploadSingle cwd env w file with
  | error e => rfl
  | ok res =>
    obtain ⟨f, w'⟩ := res
    simp only [hcreate]
    unfold uploadSingle at hup
    cases file with
    | none => simp at hup; rw [← hup.2]
    | some inc =>
      simp only at hup
      split at hup
      · cases hup
      · simp at hup; rw [← hup.2]

/-- Witness of C1 on a body without `lat`. -/
theorem createReport_missing_coordinate_witness :
    createReport ⟨5, [], "r1".toList, none, false⟩ ⟨[], []⟩
        ⟨JsVal.undefined, JsVal.num (JsNum.fin 3), JsVal.undefined, JsVal.undefined,
          JsVal.undefined⟩ none
        = (Outcome.responded ⟨400, Body.error "lat and lng are required"⟩, ⟨[], []⟩)
      ∧ (postReports "/srv".toList ⟨5, [], "r1".toList, none, false⟩ ⟨[], []⟩
        ⟨JsVal.undefined, JsVal.num (JsNum.fin 3), JsVal.undefined, JsVal.undefined,
          JsVal.undefined⟩ none).2.reports = [] :=
  createReport_missing_coordinate "/srv".toList ⟨5, [], "r1".toList, none, false⟩ ⟨[], []⟩
    ⟨JsVal.undefined, JsVal.num (JsNum.fin 3), JsVal.undefined, JsVal.undefined,
      JsVal.undefined⟩ none none (Or.inl rfl)

theorem castNumber_ok (n : JsNum) (h : n ≠ JsNum.nan) : castNumber n = .ok n := by
  simp [castNumber, h]

theorem createReport_bare (env : Env) (w : World) (lat lng : JsVal)
    (hlat : lat.looseNull = false) (hlng : lng.looseNull = false)
    (hnlat : toNumber lat ≠ JsNum.nan) (hnlng : toNumber lng ≠ JsNum.nan)
    (hstore : env.storeFault ≠ some 0) :
    createReport env w ⟨lat, lng, JsVal.undefined, JsVal.undefined, JsVal.undefined⟩ none
      = (Outcome.responded ⟨201, Body.report (bareReport env (toNumber lng) (toNumber lat))⟩,
          { w with reports := w.reports ++ [bareReport env (toNumber lng) (toNumber lat)] }) := by
  simp [createReport, tryCatch, Report.create, castDraft, castString, castNumbers,
    castNullableNumber,
    castNumber_ok _ hnlat,
    castNumber_ok _ hnlng, storeOp, hstore, hlat, hlng, JsVal.orDefault, Except.map, bareReport,
    bind, Except.bind, pure, Except.pure]

theorem stringToNumber_12_9 : stringToNumber "12.9".toList = toBinary64 (129 / 10) := by
  decide!

theorem stringToNumber_77_6 : stringToNumber "77.6".toList = toBinary64 (776 / 10) := by
  decide!

theorem toBinary64_12_9_77_6 :
    toBinary64 (129 / 10) ≠ JsNum.nan ∧ toBinary64 (776 / 10) ≠ JsNum.nan := by
  decide!

/-- C2 fails on a request whose `lat` does not coerce to a number: for
`lat = "abc"`, `lng = "1"` the coordinates handed to `Report.create` are
`[1, NaN]`, the `[Number]` path of the schema refuses `NaN`, and the answer
is 500 with nothing stored. -/
theorem createReport_refuses_nan :
    createReport sampleEnv sampleWorld
        ⟨JsVal.str "abc".toList, JsVal.str "1".toList, JsVal.undefined, JsVal.undefined,
          JsVal.undefined⟩ none
      = (Outcome.responded ⟨500, Body.error "internal"⟩, sampleWorld) := by
  decide!

/-- C2 as the code has it: a create request that supplies `lat` and `lng`
that coerce to numbers (`Number(lat)` and `Number(lng)` are not `NaN`), no
other field and no image, and whose insertion the store does not reject, is
answered 201 with the stored report; its status is `"open"`, its comments
are empty, its severity and image are null and its coordinates are
`[Number(lng), Number(lat)]`.  For `lat = 12.9`, `lng = 77.6`, sent as
numbers or as form strings, the coordinates are `[77.6, 12.9]`. -/
theorem createReport_lat_lng_only (env : Env) (w : World) (lat lng : JsVal)
    (hlat : lat ≠ JsVal.undefined ∧ lat ≠ JsVal.null)
    (hlng : lng ≠ JsVal.undefined ∧ lng ≠ JsVal.null)
    (hnlat : toNumber lat ≠ JsNum.nan) (hnlng : toNumber lng ≠ JsNum.nan)
    (hstore : env.storeFault ≠ some 0) :
    (∃ doc : Report,
      createReport env w ⟨lat, lng, JsVal.undefined, JsVal.undefined, JsVal.undefined⟩ none
          = (Outcome.responded ⟨201, Body.report doc⟩, { w with reports := w.reports ++ [doc] })
        ∧ doc.status = some (Text.lit "open".toList)
        ∧ doc.comments = []
        ∧ doc.severity = none
        ∧ doc.image = none
        ∧ doc.location.coordinates = [toNumber lng, toNumber lat])
      ∧ (∃ doc : Report,
        createReport env w
            ⟨JsVal.num (toBinary64 (129 / 10)), JsVal.num (toBinary64 (776 / 10)),
              JsVal.undefined, JsVal.undefined, JsVal.undefined⟩ none
          = (Outcome.responded ⟨201, Body.report doc⟩, { w with reports := w.reports ++ [doc] })
        ∧ doc.location.coordinates = [toBinary64 (776 / 10), toBinary64 (129 / 10)])
      ∧ (∃ doc : Report,
        createReport env w ⟨JsVal.str "12.9".toList, JsVal.str "77.6".toList,
            JsVal.undefined, JsVal.undefined, JsVal.undefined⟩ none
          = (Outcome.responded ⟨201, Body.report doc⟩, { w with reports := w.reports ++ [doc] })
        ∧ doc.location.coordinates = [toBinary64 (776 / 10), toBinary64 (129 / 10)]) := by
  have h1 : lat.looseNull = false := by
    cases lat <;> simp_all [JsVal.looseNull]
  have h2 : lng.looseNull = false := by
    cases lng <;> simp_all [JsVal.looseNull]
  obtain ⟨n1, n2⟩ := toBinary64_12_9_77_6
  refine ⟨⟨_, createReport_bare env w lat lng h1 h2 hnlat hnlng hstore, rfl, rfl, rfl, rfl, rfl⟩,
    ⟨_, createReport_bare env w _ _ rfl rfl n1 n2 hstore, rfl⟩,
    ⟨_, createReport_bare env w _ _ rfl rfl ?_ ?_ hstore, ?_⟩⟩
  · rw [toNumber, stringToNumber_12_9]; exact n1
  · rw [toNumber, stringToNumber_77_6]; exact n2
  · simp only [bareReport, toNumber, stringToNumber_12_9, stringToNumber_77_6]

/-- Witness of C2 as amended on `lat = 12.9`, `lng = 77.6`. -/
theorem createReport_lat_lng_only_witness :
    ∃ doc : Report,
      createReport sampleEnv sampleWorld
          ⟨JsVal.num (toBinary64 (129 / 10)), JsVal.num (toBinary64 (776 / 10)),
            JsVal.undefined, JsVal.undefined, JsVal.undefined⟩ none
          = (Outcome.responded ⟨201, Body.report doc⟩,
              { sampleWorld with reports := sampleWorld.reports ++ [doc] })
        ∧ doc.status = some (Text.lit "open".toList)
        ∧ doc.location.coordinates = [toBinary64 (776 / 10), toBinary64 (129 / 10)] := by
  obtain ⟨n1, n2⟩ := toBinary64_12_9_77_6
  obtain ⟨⟨doc, h, hs, _, _, _, hc⟩, _⟩ :=
    createReport_lat_lng_only sampleEnv sampleWorld
      (JsVal.num (toBinary64 (129 / 10))) (JsVal.num (toBinary64 (776 / 10)))
      ⟨by simp, by simp⟩ ⟨by simp, by simp⟩ n1 n2 (by decide)
  exact ⟨doc, h, hs, hc⟩

/-! ### Statistics -/

theorem countP_three_le (a b c : Option Text) (hab : a ≠ b) (hac : a ≠ c) (hbc : b ≠ c)
    (rs : List Report) :
    (rs.countP fun r => r.status = a) + (rs.countP fun r => r.status = b)
        + (rs.countP fun r => r.status = c) ≤ rs.length
      ∧ ((rs.countP fun r => r.status = a) + (rs.countP fun r => r.status = b)
          + (rs.countP fun r => r.status = c) = rs.length
        ↔ ∀ r ∈ rs, r.status = a ∨ r.status = b ∨ r.status = c) := by
  induction rs with
  | nil => simp
  | cons r rs ih =>
    obtain ⟨hle, hiff⟩ := ih
    simp only [List.countP_cons, List.length_cons, List.mem_cons, forall_eq_or_imp, ← hiff]
    by_cases h1 : r.status = a
    · have h2 : r.status ≠ b := fun h => hab (h1.symm.trans h)
      have h3 : r.status ≠ c := fun h => hac (h1.symm.trans h)
      simp only [decide_eq_true h1, decide_eq_false h2, decide_eq_false h3]
      simp only [h1, true_or, true_and, if_true, Bool.false_eq_true, if_false]
      omega
    · by_cases h2 : r.status = b
      · have h3 : r.status ≠ c := fun h => hbc (h2.symm.trans h)
        simp only [decide_eq_false h1, decide_eq_true h2, decide_eq_false h3]
        simp only [h2, true_or, or_true, true_and, if_true, Bool.false_eq_true, if_false]
        omega
      · by_cases h3 : r.status = c
        · simp only [decide_eq_false h1, decide_eq_false h2, decide_eq_true h3]
          simp only [h3, or_true, true_and, if_true, Bool.false_eq_true, if_false]
          omega
        · simp only [decide_eq_false h1, decide_eq_false h2, decide_eq_false h3]
          simp only [h1, h2, h3, or_self, false_and, iff_false, Bool.false_eq_true, if_false]
          omega

theorem count_buckets_le (rs : List Report) :
    countStatus rs "open" + countStatus rs "in_progress" + countStatus rs "fixed" ≤ rs.length
      ∧ (countStatus rs "open" + countStatus rs "in_progress" + countStatus rs "fixed" = rs.length
        ↔ ∀ r ∈ rs, r.status = some (Text.lit "open".toList) ∨ r.status = some (Text.lit "in_progress".toList)
            ∨ r.status = some (Text.lit "fixed".toList)) :=
  countP_three_le _ _ _ (by decide) (by decide) (by decide) rs

/-- C8: with the four counts answered by the store, `GET /stats` returns
`total` equal to the number of reports and `open`, `inProgress`, `fixed`
equal to the numbers of reports whose status is exactly `"open"`,
`"in_progress"`, `"fixed"`; the three buckets sum to at most `total`, with
equality exactly when every report has one of these three statuses. -/
theorem stats_counts (env : Env) (w : World) (hstore : env.storeFault = none) :
    stats env w = (Outcome.responded ⟨200, Body.stats w.reports.length
        (w.reports.countP fun r => r.status = some (Text.lit "open".toList))
        (w.reports.countP fun r => r.status = some (Text.lit "in_progress".toList))
        (w.reports.countP fun r => r.status = some (Text.lit "fixed".toList))⟩, w)
      ∧ countStatus w.reports "open" + countStatus w.reports "in_progress"
          + countStatus w.reports "fixed" ≤ w.reports.length
      ∧ (countStatus w.reports "open" + countStatus w.reports "in_progress"
          + countStatus w.reports "fixed" = w.reports.length
        ↔ ∀ r ∈ w.reports, r.status = some (Text.lit "open".toList)
            ∨ r.status = some (Text.lit "in_progress".toList)
            ∨ r.status = some (Text.lit "fixed".toList)) := by
  refine ⟨?_, count_buckets_le w.reports⟩
  simp [stats, noCatch, storeOp, hstore, countStatus, bind, Except.bind, pure, Except.pure]

/-- Witness of C8 on three reports, one with status `"wontfix"`. -/
theorem stats_counts_witness :
    stats sampleEnv sampleWorld
        = (Outcome.responded ⟨200, Body.stats 3 1 0 1⟩, sampleWorld)
      ∧ countStatus sampleWorld.reports "open" + countStatus sampleWorld.reports "in_progress"
          + countStatus sampleWorld.reports "fixed" ≤ sampleWorld.reports.length := by
  have h := stats_counts sampleEnv sampleWorld rfl
  exact ⟨h.1.trans (by decide), h.2.1⟩

/-! ### Start-up port fallback -/

theorem start_inUse (bind : Nat → BindResult) (fuel p : Nat)
    (hb : bind p = BindResult.error "EADDRINUSE") :
    start bind (fuel + 1) p
      = ⟨p :: (start bind fuel (p + 1)).tried,
          LogLine.inUse p (p + 1) :: (start bind fuel (p + 1)).log,
          (start bind fuel (p + 1)).state⟩ := by
  rw [start, hb]; simp

theorem start_noPermission (bind : Nat → BindResult) (fuel p : Nat)
    (hb : bind p = BindResult.error "EACCES") :
    start bind (fuel + 1) p
      = ⟨p :: (start bind fuel (p + 1)).tried,
          LogLine.noPermission p (p + 1) :: (start bind fuel (p + 1)).log,
          (start bind fuel (p + 1)).state⟩ := by
  have hne : ¬ ("EACCES" = "EADDRINUSE") := by decide
  rw [start, hb]; simp [hne]

theorem start_listening (bind : Nat → BindResult) (fuel p : Nat) (addrPort : Option Nat)
    (hb : bind p = BindResult.listening addrPort) :
    start bind (fuel + 1) p
      = ⟨[p], [LogLine.running (addrPort.getD p)], StartState.listeningOn p⟩ := by
  rw [start, hb]

theorem start_fatal (bind : Nat → BindResult) (fuel p : Nat) (code : String)
    (hb : bind p = BindResult.error code) (h1 : code ≠ "EADDRINUSE") (h2 : code ≠ "EACCES") :
    start bind (fuel + 1) p = ⟨[p], [LogLine.fatal code], StartState.exited 1⟩ := by
  rw [start, hb]; simp [h1, h2]

theorem start_retry (bind : Nat → BindResult) (q : Nat) :
    ∀ (n p : Nat), p + n = q →
      (∀ k, p ≤ k → k < q →
        bind k = BindResult.error "EADDRINUSE" ∨ bind k = BindResult.error "EACCES") →
      ∀ fuel, n ≤ fuel →
        (start bind (fuel + 1) p).tried = List.range' p n ++ (start bind (fuel + 1 - n) q).tried
          ∧ (∃ warnings, (start bind (fuel + 1) p).log
              = warnings ++ (start bind (fuel + 1 - n) q).log)
          ∧ (start bind (fuel + 1) p).state = (start bind (fuel + 1 - n) q).state := by
  intro n
  induction n with
  | zero =>
    intro p hp _ fuel _
    simp only [Nat.add_zero] at hp
    subst hp
    exact ⟨by simp, ⟨[], by simp⟩, by simp⟩
  | succ n ih =>
    intro p hp hfail fuel hfuel
    obtain ⟨fuel, rfl⟩ : ∃ f, fuel = f + 1 := ⟨fuel - 1, by omega⟩
    have hstep := ih (p + 1) (by omega) (fun k hk hkq => hfail k (by omega) hkq) fuel (by omega)
    have hsub : fuel + 1 + 1 - (n + 1) = fuel + 1 - n := by omega
    rw [hsub]
    obtain ⟨ht, ⟨ws, hl⟩, hs⟩ := hstep
    rcases hfail p (Nat.le_refl p) (by omega) with hb | hb
    · rw [start_inUse bind (fuel + 1) p hb]
      refine ⟨?_, ⟨LogLine.inUse p (p + 1) :: ws, ?_⟩, hs⟩
      · simp only [ht]; simp [List.range'_succ]
      · simp only [hl]; simp
    · rw [start_noPermission bind (fuel + 1) p hb]
      refine ⟨?_, ⟨LogLine.noPermission p (p + 1) :: ws, ?_⟩, hs⟩
      · simp only [ht]; simp [List.range'_succ]
      · simp only [hl]; simp

/-- C10: when every port of `[p, q)` fails with `EADDRINUSE` or `EACCES`,
`start(p)` hands `p, p+1, ..., q` to `app.listen` in that order and nothing
else; if `q` binds (on the port it was asked for) the run ends listening on
`q`, the least port that binds, and its last console line reports `q`; if
`q` fails with any other error the run ends with `process.exit(1)`. -/
theorem start_falls_back (bind : Nat → BindResult) (p q : Nat) (hpq : p ≤ q)
    (hfail : ∀ k, p ≤ k → k < q →
      bind k = BindResult.error "EADDRINUSE" ∨ bind k = BindResult.error "EACCES") :
    (∀ addrPort, bind q = BindResult.listening addrPort → addrPort.getD q = q →
      ∀ fuel, q - p < fuel →
        (start bind fuel p).state = StartState.listeningOn q
          ∧ (start bind fuel p).tried = List.range' p (q - p + 1)
          ∧ (start bind fuel p).log.getLast? = some (LogLine.running q)
          ∧ ∀ k, p ≤ k → k < q → ∀ a, bind k ≠ BindResult.listening a)
      ∧ (∀ code, bind q = BindResult.error code → code ≠ "EADDRINUSE" → code ≠ "EACCES" →
        ∀ fuel, q - p < fuel →
          (start bind fuel p).state = StartState.exited 1
            ∧ (start bind fuel p).tried = List.range' p (q - p + 1)) := by
  have hrange : List.range' p (q - p + 1) = List.range' p (q - p) ++ [q] := by
    rw [List.range'_concat]; simp; omega
  constructor
  · intro addrPort hq haddr fuel hfuel
    obtain ⟨fuel, rfl⟩ : ∃ f, fuel = f + 1 := ⟨fuel - 1, by omega⟩
    obtain ⟨ht, ⟨ws, hl⟩, hs⟩ := start_retry bind q (q - p) p (by omega) hfail fuel (by omega)
    obtain ⟨m, hm⟩ : ∃ m, fuel + 1 - (q - p) = m + 1 := ⟨fuel - (q - p), by omega⟩
    rw [hm, start_listening bind m q addrPort hq] at ht hl hs
    refine ⟨hs, by rw [ht, hrange], by rw [hl, haddr]; simp, ?_⟩
    intro k hk hkq a hb
    rcases hfail k hk hkq with h | h <;> rw [h] at hb <;> cases hb
  · intro code hq h1 h2 fuel hfuel
    obtain ⟨fuel, rfl⟩ : ∃ f, fuel = f + 1 := ⟨fuel - 1, by omega⟩
    obtain ⟨ht, _, hs⟩ := start_retry bind q (q - p) p (by omega) hfail fuel (by omega)
    obtain ⟨m, hm⟩ : ∃ m, fuel + 1 - (q - p) = m + 1 := ⟨fuel - (q - p), by omega⟩
    rw [hm, start_fatal bind m q code hq h1 h2] at ht hs
    exact ⟨hs, by rw [ht, hrange]⟩

/-- Witness of C10: ports 4000 and 4001 are refused and 4002 binds; and
port 4000 is refused and 4001 fails with `ENOTSUP`. -/
theorem start_falls_back_witness :
    ((start sampleBind 5 4000).state = StartState.listeningOn 4002
      ∧ (start sampleBind 5 4000).tried = [4000, 4001, 4002]
      ∧ (start sampleBind 5 4000).log.getLast? = some (LogLine.running 4002))
    ∧ ((start sampleBindFatal 5 4000).state = StartState.exited 1
      ∧ (start sampleBindFatal 5 4000).tried = [4000, 4001]) := by
  have h := (start_falls_back sampleBind 4000 4002 (by decide)
    (by
      intro k hk hkq
      have : k = 4000 ∨ k = 4001 := by omega
      rcases this with rfl | rfl
      · exact Or.inl rfl
      · exact Or.inr rfl)).1 (some 4002) rfl rfl 5 (by decide)
  have h' := (start_falls_back sampleBindFatal 4000 4001 (by decide)
    (by
      intro k hk hkq
      have : k = 4000 := by omega
      subst this
      exact Or.inl rfl)).2 "ENOTSUP" rfl (by decide) (by decide) 5 (by decide)
  exact ⟨⟨h.1, h.2.1, h.2.2.1⟩, h'.1, h'.2⟩

/-! ### Listing reports -/

theorem JsNum.max_one_of_ne_nan (x : JsNum) (hx : x ≠ JsNum.nan) :
    JsNum.max (JsNum.fin 1) x ≠ JsNum.nan
      ∧ JsNum.le (JsNum.fin 1) (JsNum.max (JsNum.fin 1) x) = true := by
  cases x with
  | nan => exact absurd rfl hx
  | posInf => simp [JsNum.max, JsNum.le]
  | negInf => simp [JsNum.max, JsNum.le]
  | fin q =>
    by_cases h : (1 : ℚ) ≤ q
    · simp [JsNum.max, JsNum.le, h]
    · simp [JsNum.max, JsNum.le, h]

theorem JsNum.min_hundred_of_ne_nan (x : JsNum) (hx : x ≠ JsNum.nan) :
    JsNum.min (JsNum.fin 100) x ≠ JsNum.nan
      ∧ JsNum.le (JsNum.min (JsNum.fin 100) x) (JsNum.fin 100) = true := by
  cases x with
  | nan => exact absurd rfl hx
  | posInf => simp [JsNum.min, JsNum.le]
  | negInf => simp [JsNum.min, JsNum.le]
  | fin q =>
    by_cases h : (100 : ℚ) ≤ q
    · simp [JsNum.min, JsNum.le, h]
    · simp [JsNum.min, JsNum.le, h]
      exact le_of_lt (lt_of_not_le h)

theorem JsNum.max_one_le_hundred (x : JsNum) (hx : x ≠ JsNum.nan)
    (hle : JsNum.le x (JsNum.fin 100) = true) :
    JsNum.le (JsNum.max (JsNum.fin 1) x) (JsNum.fin 100) = true := by
  cases x with
  | nan => exact absurd rfl hx
  | posInf => simp [JsNum.le] at hle
  | negInf => simp [JsNum.max, JsNum.le]
  | fin q =>
    by_cases h : (1 : ℚ) ≤ q
    · simpa [JsNum.max, JsNum.le, h] using hle
    · simp [JsNum.max, JsNum.le, h]

/-- The bounds of the listing: a `page` and a `limit` whose numeric
coercion is not `NaN` give a page of at least 1 and a limit in `[1, 100]`;
an absent page gives 1, an absent limit 50, a limit of `500` gives 100 and a
page of `0` gives 1. -/
theorem listPage_listLimit_bounds (q : ListQuery)
    (hpage : toNumber (q.page.nullish (JsVal.num (JsNum.fin 1))) ≠ JsNum.nan)
    (hlimit : toNumber (q.limit.nullish (JsVal.num (JsNum.fin 50))) ≠ JsNum.nan) :
    JsNum.le (JsNum.fin 1) (listPage q) = true
      ∧ JsNum.le (JsNum.fin 1) (listLimit q) = true
      ∧ JsNum.le (listLimit q) (JsNum.fin 100) = true
      ∧ listPage ⟨JsVal.undefined, q.limit⟩ = JsNum.fin 1
      ∧ listLimit ⟨q.page, JsVal.undefined⟩ = JsNum.fin 50
      ∧ listLimit ⟨q.page, JsVal.str "500".toList⟩ = JsNum.fin 100
      ∧ listPage ⟨JsVal.str "0".toList, q.limit⟩ = JsNum.fin 1 := by
  have hmin := JsNum.min_hundred_of_ne_nan _ hlimit
  refine ⟨(JsNum.max_one_of_ne_nan _ hpage).2, (JsNum.max_one_of_ne_nan _ hmin.1).2,
    JsNum.max_one_le_hundred _ hmin.1 hmin.2, ?_, ?_, ?_, ?_⟩
  · simp [listPage, JsVal.nullish, JsVal.looseNull, toNumber, JsNum.max, JsNum.le]
  · simp [listLimit, JsVal.nullish, JsVal.looseNull, toNumber, JsNum.max, JsNum.min, JsNum.le]
    norm_num
  · have h : stringToNumber ['5', '0', '0'] = JsNum.fin 500 := by decide!
    simp [listLimit, JsVal.nullish, JsVal.looseNull, toNumber, h, JsNum.max, JsNum.min,
      JsNum.le]
    norm_num
  · have h : stringToNumber ['0'] = JsNum.fin 0 := by decide!
    simp [listPage, JsVal.nullish, JsVal.looseNull, toNumber, h, JsNum.max, JsNum.le]

/-- C3 at the query `?page=abc&limit=abc`: `Number("abc")` is `NaN`, which
`Math.max` and `Math.min` return unchanged, so the page and the limit the
handler computes are `NaN`: the page is not at least 1 and the limit is not
in `[1, 100]`. -/
theorem listPage_listLimit_nan :
    listPage ⟨JsVal.str "abc".toList, JsVal.str "abc".toList⟩ = JsNum.nan
      ∧ listLimit ⟨JsVal.str "abc".toList, JsVal.str "abc".toList⟩ = JsNum.nan
      ∧ JsNum.le (JsNum.fin 1)
          (listPage ⟨JsVal.str "abc".toList, JsVal.str "abc".toList⟩) = false
      ∧ JsNum.le (JsNum.fin 1)
          (listLimit ⟨JsVal.str "abc".toList, JsVal.str "abc".toList⟩) = false
      ∧ JsNum.le (listLimit ⟨JsVal.str "abc".toList, JsVal.str "abc".toList⟩)
          (JsNum.fin 100) = false := by
  decide

theorem JsNum.toNat?_ofNat (n : Nat) : (JsNum.ofNat n).toNat? = some n := by
  simp [JsNum.ofNat, JsNum.toNat?]

theorem listPage_ofNat (q : ListQuery) (p : Nat) (hp : 1 ≤ p)
    (hpage : toNumber (q.page.nullish (JsVal.num (JsNum.fin 1))) = JsNum.ofNat p) :
    listPage q = JsNum.ofNat p := by
  have h : (1 : ℚ) ≤ (p : ℚ) := by exact_mod_cast hp
  simp [listPage, hpage, JsNum.ofNat, JsNum.max, JsNum.le, h]

theorem listLimit_ofNat (q : ListQuery) (l : Nat) (hl1 : 1 ≤ l) (hl : l ≤ 100)
    (hlimit : toNumber (q.limit.nullish (JsVal.num (JsNum.fin 50))) = JsNum.ofNat l) :
    listLimit q = JsNum.ofNat l := by
  have h1 : (1 : ℚ) ≤ (l : ℚ) := by exact_mod_cast hl1
  have h2 : (l : ℚ) ≤ 100 := by exact_mod_cast hl
  by_cases h3 : (100 : ℚ) ≤ (l : ℚ)
  · have h4 : (l : ℚ) = 100 := le_antisymm h2 h3
    simp [listLimit, hlimit, JsNum.ofNat, JsNum.max, JsNum.min, JsNum.le, h4]
  · simp [listLimit, hlimit, JsNum.ofNat, JsNum.max, JsNum.min, JsNum.le, h1, h3]

theorem skip_ofNat (p l : Nat) (hp : 1 ≤ p) (hb : p * l ≤ 2 ^ 53) (hl1 : 1 ≤ l) :
    ((JsNum.ofNat p).sub (JsNum.fin 1)).mul (JsNum.ofNat l) = JsNum.ofNat ((p - 1) * l) := by
  have hle : (p - 1) * l ≤ p * l := Nat.mul_le_mul_right l (Nat.sub_le p 1)
  have h1 : p - 1 ≤ 2 ^ 53 :=
    le_trans (Nat.le_mul_of_pos_right (p - 1) hl1) (le_trans hle hb)
  have hsub : ((p : ℚ) - 1) = ((p - 1 : Nat) : ℚ) := by
    push_cast [Nat.cast_sub hp]; ring
  have hmul : (((p - 1 : Nat) : ℚ) * (l : ℚ)) = (((p - 1) * l : Nat) : ℚ) := by
    push_cast; ring
  simp only [JsNum.ofNat, JsNum.sub]
  rw [hsub, toBinary64_natCast _ h1]
  simp only [JsNum.mul]
  rw [hmul, toBinary64_natCast _ (le_trans hle hb)]

theorem listReports_of_coercions (env : Env) (w : World) (q : ListQuery) (p l : Nat)
    (hp : 1 ≤ p) (hl1 : 1 ≤ l) (hl : l ≤ 100) (hb : p * l ≤ 2 ^ 53)
    (hpage : toNumber (q.page.nullish (JsVal.num (JsNum.fin 1))) = JsNum.ofNat p)
    (hlimit : toNumber (q.limit.nullish (JsVal.num (JsNum.fin 50))) = JsNum.ofNat l)
    (hstore : env.storeFault = none) :
    listReports env w q
      = (Outcome.responded ⟨200, Body.list w.reports.length (JsNum.ofNat p) (JsNum.ofNat l)
          (((sortByCreatedDesc w.reports).drop ((p - 1) * l)).take l)⟩, w) := by
  simp [listReports, tryCatch, findPage, storeOp, hstore, listPage_ofNat q p hp hpage,
    listLimit_ofNat q l hl1 hl hlimit, skip_ofNat p l hp hb hl1, JsNum.toNat?_ofNat, bind,
    Except.bind, pure, Except.pure]

theorem sortByCreatedDesc_replicate (n : Nat) (r : Report) :
    sortByCreatedDesc (List.replicate n r) = List.replicate n r := by
  induction n with
  | zero => rfl
  | succ n ih =>
    have ih' : List.insertionSort (fun a b => b.createdAt ≤ a.createdAt) (List.replicate n r)
        = List.replicate n r := ih
    rw [List.replicate_succ, sortByCreatedDesc, List.insertionSort, ih']
    cases n with
    | zero => rfl
    | succ n => simp [List.replicate_succ, List.orderedInsert]

theorem crowdedWorld_reports :
    crowdedWorld.reports = List.replicate (2 ^ 54) (sampleReport "a" "open" none 10) :=
  rfl

/-- C4 fails on a page beyond `2 ^ 53`: for `page = 9007199254740993`
(`2 ^ 53 + 1`) and `limit = 2` the page the handler computes is the
binary64 value `9007199254740992` and the offset it passes to the store is
`18014398509481982`, not `(page - 1) * limit = 18014398509481984`; on a
collection of `2 ^ 54` reports the handler returns the last two reports
where the segment at offset `(page - 1) * limit` is empty. -/
theorem listReports_rounds_page :
    listReports sampleEnv crowdedWorld
        ⟨JsVal.str "9007199254740993".toList, JsVal.str "2".toList⟩
      = (Outcome.responded ⟨200, Body.list (2 ^ 54) (JsNum.ofNat 9007199254740992)
          (JsNum.ofNat 2)
          [sampleReport "a" "open" none 10, sampleReport "a" "open" none 10]⟩, crowdedWorld)
      ∧ ((sortByCreatedDesc crowdedWorld.reports).drop ((9007199254740993 - 1) * 2)).take 2
        = [] := by
  have hpage : listPage ⟨JsVal.str "9007199254740993".toList, JsVal.str "2".toList⟩
      = JsNum.fin 9007199254740992 := by decide!
  have hlimit : listLimit ⟨JsVal.str "9007199254740993".toList, JsVal.str "2".toList⟩
      = JsNum.fin 2 := by decide!
  have hskip : ((JsNum.fin 9007199254740992).sub (JsNum.fin 1)).mul (JsNum.fin 2)
      = JsNum.fin 18014398509481982 := by decide!
  have hnat : (JsNum.fin 18014398509481982).toNat? = some 18014398509481982 := by decide!
  have hnat2 : (JsNum.fin 2).toNat? = some 2 := by decide!
  have hsort := sortByCreatedDesc_replicate (2 ^ 54) (sampleReport "a" "open" none 10)
  constructor
  · have hstore : sampleEnv.storeFault = none := rfl
    simp only [listReports, tryCatch, findPage, storeOp, hstore, hpage, hlimit, hskip, hnat,
      hnat2, crowdedWorld_reports, hsort, bind, Except.bind, pure, Except.pure,
      List.drop_replicate, List.take_replicate, List.length_replicate, JsNum.ofNat]
    norm_num
    rfl
  · rw [crowdedWorld_reports, hsort, List.drop_replicate, List.take_replicate]
    norm_num

/-- C4 as the code has it: for a page `p ≥ 1` and a limit `l` in `[1, 100]`
with `p * l ≤ 2 ^ 53` (the integers the `page` and `limit` parameters coerce
to, in the range where binary64 arithmetic is exact) and a store that
answers both queries, `GET /reports` returns `total` equal to the size of
the whole collection and `reports` equal to the segment of at most `l`
reports that starts at offset `(p - 1) * l` of the collection sorted by
creation time descending; the sorted collection is a rearrangement of the
collection in non-increasing order of creation time. -/
theorem listReports_segment (env : Env) (w : World) (q : ListQuery) (p l : Nat)
    (hp : 1 ≤ p) (hl1 : 1 ≤ l) (hl : l ≤ 100) (hb : p * l ≤ 2 ^ 53)
    (hpage : toNumber (q.page.nullish (JsVal.num (JsNum.fin 1))) = JsNum.ofNat p)
    (hlimit : toNumber (q.limit.nullish (JsVal.num (JsNum.fin 50))) = JsNum.ofNat l)
    (hstore : env.storeFault = none) :
    listReports env w q
        = (Outcome.responded ⟨200, Body.list w.reports.length (JsNum.ofNat p) (JsNum.ofNat l)
            (((sortByCreatedDesc w.reports).drop ((p - 1) * l)).take l)⟩, w)
      ∧ (((sortByCreatedDesc w.reports).drop ((p - 1) * l)).take l).length ≤ l
      ∧ (sortByCreatedDesc w.reports).Perm w.reports
      ∧ (sortByCreatedDesc w.reports).Sorted (fun a b => b.createdAt ≤ a.createdAt) := by
  haveI : IsTotal Report (fun a b => b.createdAt ≤ a.createdAt) :=
    ⟨fun a b => Nat.le_total b.createdAt a.createdAt⟩
  haveI : IsTrans Report (fun a b => b.createdAt ≤ a.createdAt) :=
    ⟨fun _ _ _ hab hbc => Nat.le_trans hbc hab⟩
  exact ⟨listReports_of_coercions env w q p l hp hl1 hl hb hpage hlimit hstore,
    List.length_take_le _ _, List.perm_insertionSort _ _, List.sorted_insertionSort _ _⟩

/-- Witness of C4 as amended: page 2 with limit 2 of three reports holds the
oldest report only. -/
theorem listReports_segment_witness :
    listReports sampleEnv sampleWorld ⟨JsVal.str "2".toList, JsVal.str "2".toList⟩
      = (Outcome.responded ⟨200, Body.list 3 (JsNum.ofNat 2) (JsNum.ofNat 2)
          [sampleReport "a" "open" none 10]⟩, sampleWorld) :=
  (listReports_segment sampleEnv sampleWorld ⟨JsVal.str "2".toList, JsVal.str "2".toList⟩ 2 2
    (by decide) (by decide) (by decide) (by decide) (by decide!) (by decide!) rfl).1.trans
    (by decide)

/-! ### Decimal query strings -/

theorem digitChar_toNat (k : Nat) (hk : k < 10) :
    (Nat.digitChar k).toNat - 48 = k ∧ isDecimalDigit (Nat.digitChar k) = true
      ∧ isStrWhiteSpaceChar (Nat.digitChar k) = false := by
  interval_cases k <;> decide

theorem decimalValue_append (pre : List Char) (c : Char) :
    decimalValue (pre ++ [c]) = 10 * decimalValue pre + (c.toNat - 48) := by
  simp [decimalValue, List.foldl_append]

theorem toDigitsCore_decimal (fuel : Nat) :
    ∀ (n : Nat) (acc : List Char), n < fuel →
      ∃ pre : List Char, Nat.toDigitsCore 10 fuel n acc = pre ++ acc ∧ pre ≠ []
        ∧ (∀ c ∈ pre, isDecimalDigit c = true ∧ isStrWhiteSpaceChar c = false)
        ∧ decimalValue pre = n := by
  induction fuel with
  | zero => intro n acc h; omega
  | succ fuel ih =>
    intro n acc hn
    obtain ⟨hd1, hd2, hd3⟩ := digitChar_toNat (n % 10) (Nat.mod_lt _ (by decide))
    simp only [Nat.toDigitsCore]
    split
    · rename_i h0
      refine ⟨[Nat.digitChar (n % 10)], rfl, by simp, ?_, ?_⟩
      · intro c hc
        rw [List.mem_singleton.mp hc]
        exact ⟨hd2, hd3⟩
      · have : decimalValue [Nat.digitChar (n % 10)] = (Nat.digitChar (n % 10)).toNat - 48 := by
          simp [decimalValue]
        rw [this, hd1]
        omega
    · rename_i h0
      obtain ⟨pre, hpre, _, hdig, hval⟩ := ih (n / 10) (Nat.digitChar (n % 10) :: acc) (by omega)
      refine ⟨pre ++ [Nat.digitChar (n % 10)], by rw [hpre]; simp, by simp, ?_, ?_⟩
      · intro c hc
        rcases List.mem_append.mp hc with h | h
        · exact hdig c h
        · rw [List.mem_singleton.mp h]
          exact ⟨hd2, hd3⟩
      · rw [decimalValue_append, hval, hd1]
        omega

theorem toDigits_decimal (n : Nat) :
    Nat.toDigits 10 n ≠ []
      ∧ (∀ c ∈ Nat.toDigits 10 n, isDecimalDigit c = true ∧ isStrWhiteSpaceChar c = false)
      ∧ decimalValue (Nat.toDigits 10 n) = n := by
  obtain ⟨pre, hpre, hne, hdig, hval⟩ := toDigitsCore_decimal (n + 1) n [] (by omega)
  have : Nat.toDigits 10 n = pre := by simpa [Nat.toDigits] using hpre
  rw [this]
  exact ⟨hne, hdig, hval⟩

theorem trimWhiteSpace_of_no_space (s : List Char)
    (h : ∀ c ∈ s, isStrWhiteSpaceChar c = false) : trimWhiteSpace s = s := by
  have hdrop : ∀ l : List Char, (∀ c ∈ l, isStrWhiteSpaceChar c = false) →
      l.dropWhile isStrWhiteSpaceChar = l := by
    intro l hl
    cases l with
    | nil => rfl
    | cons c cs => exact List.dropWhile_cons_of_neg (by simp [hl c (by simp)])
  unfold trimWhiteSpace
  rw [hdrop s h, hdrop s.reverse (fun c hc => h c (List.mem_reverse.mp hc))]
  simp

theorem readUnsignedDecimal_digits (s : List Char) (hne : s ≠ [])
    (h : ∀ c ∈ s, isDecimalDigit c = true) (hb : decimalValue s ≤ 2 ^ 53) :
    readUnsignedDecimal s = JsNum.ofNat (decimalValue s) := by
  have hinf : s ≠ ['I', 'n', 'f', 'i', 'n', 'i', 't', 'y'] := by
    intro hs
    have := h 'I' (by rw [hs]; decide)
    revert this
    decide
  have htake : s.takeWhile isDecimalDigit = s := List.takeWhile_eq_self_iff.mpr h
  have hdrop : s.dropWhile isDecimalDigit = [] := List.dropWhile_eq_nil_iff.mpr h
  have hemp : s.isEmpty = false := by
    cases s with
    | nil => exact absurd rfl hne
    | cons c cs => rfl
  simp [readUnsignedDecimal, hinf, htake, hdrop, hemp, readExponent, scale10, JsNum.ofNat,
    toBinary64_natCast _ hb]

theorem stringToNumber_digits (s : List Char) (hne : s ≠ [])
    (h : ∀ c ∈ s, isDecimalDigit c = true ∧ isStrWhiteSpaceChar c = false)
    (hb : decimalValue s ≤ 2 ^ 53) :
    stringToNumber s = JsNum.ofNat (decimalValue s) := by
  have hread := readUnsignedDecimal_digits s hne (fun c hc => (h c hc).1) hb
  have htrim := trimWhiteSpace_of_no_space s (fun c hc => (h c hc).2)
  have hnot : ∀ c : Char, isDecimalDigit c = false → ∀ cs, s ≠ c :: cs := by
    intro c hc cs hs
    have := (h c (by rw [hs]; simp)).1
    rw [hc] at this
    cases this
  have hnot2 : ∀ c : Char, isDecimalDigit c = false → ∀ a cs, s ≠ a :: c :: cs := by
    intro c hc a cs hs
    have := (h c (by rw [hs]; simp)).1
    rw [hc] at this
    cases this
  unfold stringToNumber
  rw [htrim]
  split
  · exact absurd rfl hne
  · exact absurd rfl (hnot2 'x' (by decide) _ _)
  · exact absurd rfl (hnot2 'X' (by decide) _ _)
  · exact absurd rfl (hnot2 'o' (by decide) _ _)
  · exact absurd rfl (hnot2 'O' (by decide) _ _)
  · exact absurd rfl (hnot2 'b' (by decide) _ _)
  · exact absurd rfl (hnot2 'B' (by decide) _ _)
  · exact absurd rfl (hnot '+' (by decide) _)
  · exact absurd rfl (hnot '-' (by decide) _)
  · exact hread

/-- The decimal notation of a natural number up to `2 ^ 53` coerces to that
number: `Number(String(n)) = n`. -/
theorem stringToNumber_toDigits (n : Nat) (hn : n ≤ 2 ^ 53) :
    toNumber (JsVal.str (Nat.toDigits 10 n)) = JsNum.ofNat n := by
  obtain ⟨hne, hdig, hval⟩ := toDigits_decimal n
  rw [toNumber, stringToNumber_digits _ hne hdig (by rw [hval]; exact hn), hval]

/-- The listing on a query string: for every page `p ≥ 1` and limit `l` in
`[1, 100]` with `p * l ≤ 2 ^ 53`, written in decimal in the query, the
answer is the segment of at most `l` reports at offset `(p - 1) * l` of the
collection sorted by creation time descending, with the size of the whole
collection. -/
theorem listReports_segment_decimal (env : Env) (w : World) (p l : Nat)
    (hp : 1 ≤ p) (hl1 : 1 ≤ l) (hl : l ≤ 100) (hb : p * l ≤ 2 ^ 53)
    (hstore : env.storeFault = none) :
    listReports env w ⟨JsVal.str (Nat.toDigits 10 p), JsVal.str (Nat.toDigits 10 l)⟩
      = (Outcome.responded ⟨200, Body.list w.reports.length (JsNum.ofNat p) (JsNum.ofNat l)
          (((sortByCreatedDesc w.reports).drop ((p - 1) * l)).take l)⟩, w) :=
  listReports_of_coercions env w ⟨JsVal.str (Nat.toDigits 10 p), JsVal.str (Nat.toDigits 10 l)⟩
    p l hp hl1 hl hb
    (stringToNumber_toDigits p (le_trans (Nat.le_mul_of_pos_right p hl1) hb))
    (stringToNumber_toDigits l (le_trans hl (by norm_num))) hstore

/-! ### Updating a report -/

theorem findOne_decomposed (pre post : List Report) (r : Report) (id : List Char)
    (hpre : ∀ x ∈ pre, x.id ≠ id) (hid : r.id = id) :
    findOne (pre ++ r :: post) id = some r := by
  induction pre with
  | nil => simp [findOne, List.find?_cons, hid]
  | cons a pre ih =>
    have ha : a.id ≠ id := hpre a (by simp)
    have := ih (fun x hx => hpre x (by simp [hx]))
    simpa [findOne, List.find?_cons, ha] using this

theorem saveFirst_decomposed (pre post : List Report) (r r' : Report) (id : List Char)
    (hpre : ∀ x ∈ pre, x.id ≠ id) (hid : r.id = id) :
    saveFirst id r' (pre ++ r :: post) = pre ++ r' :: post := by
  induction pre with
  | nil => simp [saveFirst, hid]
  | cons a pre ih =>
    have ha : a.id ≠ id := hpre a (by simp)
    simp [saveFirst, ha, ih (fun x hx => hpre x (by simp [hx]))]

theorem deleteFirst_decomposed (pre post : List Report) (r : Report) (id : List Char)
    (hpre : ∀ x ∈ pre, x.id ≠ id) (hid : r.id = id) :
    deleteFirst id (pre ++ r :: post) = pre ++ post := by
  induction pre with
  | nil => simp [deleteFirst, hid]
  | cons a pre ih =>
    have ha : a.id ≠ id := hpre a (by simp)
    simp [deleteFirst, ha, ih (fun x hx => hpre x (by simp [hx]))]

theorem castString_ok (v : JsVal) (h : v ≠ JsVal.obj) : ∃ t, castString v = .ok t := by
  cases v <;> simp [castString] at h ⊢

theorem applyUpdate_ok (now : Nat) (body : UpdateBody) (r : Report)
    (hstatus : body.status ≠ JsVal.obj)
    (hsev : body.severity = JsVal.undefined ∨ toNumber body.severity ≠ JsNum.nan)
    (hcomment : body.comment ≠ JsVal.obj) :
    ∃ s c : Option Text, castString body.status = .ok s ∧ castString body.comment = .ok c
      ∧ applyUpdate now body r = .ok
        { r with
          status := if body.status.truthy then s else r.status
          severity := if body.severity ≠ JsVal.undefined then some (toNumber body.severity)
            else r.severity
          comments := if body.comment.truthy then
              r.comments ++ [{ text := c, atTime := now }] else r.comments } := by
  obtain ⟨s, hs⟩ := castString_ok _ hstatus
  obtain ⟨c, hc⟩ := castString_ok _ hcomment
  refine ⟨s, c, hs, hc, ?_⟩
  by_cases h2 : body.severity = JsVal.undefined
  · by_cases h1 : body.status.truthy = true <;> by_cases h3 : body.comment.truthy = true <;>
      simp [applyUpdate, h1, h2, h3, hs, hc, Except.map, bind, Except.bind, pure, Except.pure]
  · have hn : toNumber body.severity ≠ JsNum.nan := hsev.resolve_left h2
    by_cases h1 : body.status.truthy = true <;> by_cases h3 : body.comment.truthy = true <;>
      simp [applyUpdate, h1, h2, h3, hs, hc, castNumber_ok _ hn, Except.map, bind, Except.bind,
        pure, Except.pure]

/-- C5 fails on a request whose `severity` does not coerce to a number: for
the body `{ severity: "abc", comment: "patched" }` the `Number` path of the
schema refuses `NaN`, `save()` rejects, the answer is 500 and no comment is
appended. -/
theorem updateReport_refuses_nan_severity :
    updateReport sampleEnv sampleWorld "b".toList
        ⟨JsVal.undefined, JsVal.str "abc".toList, JsVal.str "patched".toList⟩
      = (Outcome.responded ⟨500, Body.error "internal"⟩, sampleWorld) := by
  decide!

/-- C5 as the code has it: let `r` be the first report with the requested
id, and let the update request be one the schema accepts (a supplied
`severity` coerces to a number, `status` and `comment` are not objects) and
the store answers.  Then the answer is 200 with the saved report, which
takes the place of `r` in the collection, all other reports staying as they
were.  A `comment` that is a non-empty string makes the comments the
previous comments followed by exactly one entry with that text; an omitted
`comment`, `status` or `severity` leaves that field as it was; `id`,
`image`, `description`, `reporter` and `location` keep their value in every
case. -/
theorem updateReport_appends_comment (env : Env) (w : World) (id : List Char)
    (body : UpdateBody) (r : Report) (pre post : List Report)
    (hw : w.reports = pre ++ r :: post) (hpre : ∀ x ∈ pre, x.id ≠ id) (hid : r.id = id)
    (hstatus : body.status ≠ JsVal.obj)
    (hsev : body.severity = JsVal.undefined ∨ toNumber body.severity ≠ JsNum.nan)
    (hcomment : body.comment ≠ JsVal.obj)
    (hstore : env.storeFault = none) :
    ∃ r' : Report,
      updateReport env w id body
          = (Outcome.responded ⟨200, Body.report r'⟩, { w with reports := pre ++ r' :: post })
        ∧ (∀ text : List Char, body.comment = JsVal.str text → text ≠ [] →
            r'.comments = r.comments ++ [{ text := some (Text.lit text), atTime := env.now }])
        ∧ (body.comment = JsVal.undefined → r'.comments = r.comments)
        ∧ (body.status = JsVal.undefined → r'.status = r.status)
        ∧ (body.severity = JsVal.undefined → r'.severity = r.severity)
        ∧ r'.id = r.id ∧ r'.image = r.image ∧ r'.description = r.description
        ∧ r'.reporter = r.reporter ∧ r'.location = r.location := by
  obtain ⟨s, c, hs, hc, happly⟩ := applyUpdate_ok env.now body r hstatus hsev hcomment
  have hfind : findOne w.reports id = some r := by
    rw [hw]; exact findOne_decomposed pre post r id hpre hid
  generalize hr1 : ({ r with
      status := if body.status.truthy then s else r.status
      severity := if body.severity ≠ JsVal.undefined then some (toNumber body.severity)
        else r.severity
      comments := if body.comment.truthy then
          r.comments ++ [{ text := c, atTime := env.now }] else r.comments } : Report) = r1
    at happly
  have hfields : r1.id = r.id ∧ r1.image = r.image ∧ r1.description = r.description
      ∧ r1.reporter = r.reporter ∧ r1.location = r.location
      ∧ r1.status = (if body.status.truthy then s else r.status)
      ∧ r1.severity = (if body.severity ≠ JsVal.undefined then some (toNumber body.severity)
          else r.severity)
      ∧ r1.comments = (if body.comment.truthy then
          r.comments ++ [{ text := c, atTime := env.now }] else r.comments) := by
    subst hr1
    exact ⟨rfl, rfl, rfl, rfl, rfl, rfl, rfl, rfl⟩
  obtain ⟨f1, f2, f3, f4, f5, f6, f7, f8⟩ := hfields
  refine ⟨if r1 = r then r else { r1 with updatedAt := env.now }, ?_, ?_, ?_, ?_, ?_, ?_, ?_, ?_,
    ?_, ?_⟩
  · simp only [updateReport, tryCatch, storeOp, hstore, hfind, happly, bind, Except.bind, pure,
      Except.pure]
    simp [hw, saveFirst_decomposed pre post r _ id hpre hid, happly]
  · intro text htext hne
    have htruthy : body.comment.truthy = true := by
      cases text with
      | nil => exact absurd rfl hne
      | cons a as => simp [htext, JsVal.truthy]
    have hc' : c = some (Text.lit text) := by
      rw [htext] at hc
      simp [castString] at hc
      exact hc.symm
    have h8 : r1.comments = r.comments ++ [{ text := some (Text.lit text), atTime := env.now }] := by
      rw [f8, htruthy, if_pos rfl, hc']
    split
    · rename_i h; rw [h] at h8; exact h8
    · exact h8
  · intro h
    have h8 : r1.comments = r.comments := by rw [f8, h]; rfl
    split
    · rfl
    · exact h8
  · intro h
    have h6 : r1.status = r.status := by rw [f6, h]; rfl
    split
    · rfl
    · exact h6
  · intro h
    have h7 : r1.severity = r.severity := by rw [f7, h]; simp
    split
    · rfl
    · exact h7
  all_goals (split; rfl; assumption)

/-- Witness of C5 as amended: a comment on report `b` of the sample
collection. -/
theorem updateReport_appends_comment_witness :
    ∃ r' : Report,
      updateReport sampleEnv sampleWorld "b".toList
          ⟨JsVal.undefined, JsVal.undefined, JsVal.str "patched".toList⟩
          = (Outcome.responded ⟨200, Body.report r'⟩,
              { sampleWorld with reports :=
                  [sampleReport "a" "open" none 10] ++ r' :: [sampleReport "c" "wontfix" none 20] })
        ∧ r'.comments = [{ text := some (Text.lit "seen".toList), atTime := 31 },
            { text := some (Text.lit "patched".toList), atTime := 1700000000000 }]
        ∧ r'.status = some (Text.lit "fixed".toList)
        ∧ r'.severity = some (JsNum.fin 3) := by
  obtain ⟨r', h, hc, _, hs, hv, _⟩ :=
    updateReport_appends_comment sampleEnv sampleWorld "b".toList
      ⟨JsVal.undefined, JsVal.undefined, JsVal.str "patched".toList⟩
      (sampleReport "b" "fixed" none 30) [sampleReport "a" "open" none 10]
      [sampleReport "c" "wontfix" none 20] rfl (by decide) rfl (by decide) (Or.inl rfl)
      (by decide) rfl
  exact ⟨r', h, hc "patched".toList rfl (by decide), hs rfl, hv rfl⟩

/-! ### Uploaded files and deletion -/

theorem digitChar_ne_slash (k : Nat) : Nat.digitChar k ≠ '/' := by
  by_cases h : k < 16
  · interval_cases k <;> decide
  · obtain ⟨m, rfl⟩ : ∃ m, k = m + 16 := ⟨k - 16, by omega⟩
    have hstar : Nat.digitChar (m + 16) = '*' := rfl
    rw [hstar]
    decide

theorem toDigitsCore_ne_slash (fuel : Nat) :
    ∀ (n : Nat) (ds : List Char), (∀ c ∈ ds, c ≠ '/') →
      ∀ c ∈ Nat.toDigitsCore 10 fuel n ds, c ≠ '/' := by
  induction fuel with
  | zero => intro n ds hds c hc; exact hds c (by simpa [Nat.toDigitsCore] using hc)
  | succ fuel ih =>
    intro n ds hds c hc
    have hcons : ∀ c ∈ Nat.digitChar (n % 10) :: ds, c ≠ '/' := by
      intro c hc
      rcases List.mem_cons.mp hc with h | h
      · rw [h]; exact digitChar_ne_slash _
      · exact hds c h
    simp only [Nat.toDigitsCore] at hc
    split at hc
    · exact hcons c hc
    · exact ih _ _ hcons c hc

theorem toDigits_ne_slash (n : Nat) : ∀ c ∈ Nat.toDigits 10 n, c ≠ '/' :=
  toDigitsCore_ne_slash _ _ _ (by simp)

theorem basename_ne_slash (path : List Char) : ∀ c ∈ basename path, c ≠ '/' := by
  intro c hc
  simp only [basename, List.mem_reverse] at hc
  simpa using List.mem_takeWhile_imp hc

theorem extname_ne_slash (path : List Char) : ∀ c ∈ extname path, c ≠ '/' := by
  intro c hc
  simp only [extname] at hc
  split at hc
  · simp at hc
  · split at hc
    · simp at hc
    · rcases List.mem_cons.mp hc with h | h
      · rw [h]; decide
      · have h1 : c ∈ (basename path).reverse := List.takeWhile_subset _ (List.mem_reverse.mp h)
        exact basename_ne_slash path c (List.mem_reverse.mp h1)

theorem basename_append (dir name : List Char) (hname : name ≠ [])
    (hslash : ∀ c ∈ name, c ≠ '/') :
    basename (dir ++ ['/'] ++ name) = name := by
  have hrev : (dir ++ ['/'] ++ name).reverse = name.reverse ++ '/' :: dir.reverse := by simp
  obtain ⟨c, cs, hcs⟩ : ∃ c cs, name.reverse = c :: cs := by
    cases h : name.reverse with
    | nil => exact absurd (List.reverse_eq_nil_iff.mp h) hname
    | cons c cs => exact ⟨c, cs, rfl⟩
  have hc : c ≠ '/' := hslash c (List.mem_reverse.mp (by rw [hcs]; simp))
  have hall : ∀ x ∈ name.reverse, (decide (x ≠ '/')) = true := by
    intro x hx
    simpa using hslash x (List.mem_reverse.mp hx)
  unfold basename
  rw [hrev, hcs, List.cons_append, List.dropWhile_cons_of_neg (by simpa using hc),
    ← List.cons_append, ← hcs]
  rw [List.takeWhile_append_of_pos hall]
  simp

theorem storageFilename_spec (now : Nat) (nanoid6 : List Char) (file : IncomingFile)
    (hid : ∀ c ∈ nanoid6, c ∈ urlAlphabet) :
    storageFilename now nanoid6 file ≠ []
      ∧ ∀ c ∈ storageFilename now nanoid6 file, c ≠ '/' := by
  constructor
  · simp [storageFilename]
  · intro c hc
    simp only [storageFilename, List.mem_append] at hc
    rcases hc with ((h | h) | h) | h
    · exact toDigits_ne_slash _ c h
    · simp at h; rw [h]; decide
    · intro hcs
      have := hid c h
      rw [hcs] at this
      revert this
      decide
    · exact extname_ne_slash _ c h

/-- C7 at the stored images `".."`, `"/uploads/.."`, `"."` and `"/"`: the
basename of the first two is `".."`, which `path.join` resolves to the
parent of the upload directory; the basename of the last two is `"."` or
empty, which gives the upload directory itself.  Deleting a report whose
`image` is `".."` removes every file of the application directory. -/
theorem imgPath_leaves_upload_directory :
    UPLOADS_DIR "/srv/app".toList = "/srv/app/uploads".toList
      ∧ basename "..".toList = "..".toList
      ∧ imgPath "/srv/app".toList "..".toList = "/srv/app".toList
      ∧ imgPath "/srv/app".toList "/uploads/..".toList = "/srv/app".toList
      ∧ imgPath "/srv/app".toList ".".toList = "/srv/app/uploads".toList
      ∧ imgPath "/srv/app".toList "/".toList = "/srv/app/uploads".toList
      ∧ deleteReport "/srv/app".toList sampleEnv dotDotWorld "x".toList
          = (Outcome.responded ⟨200, Body.ok⟩,
              { reports := [], files := ["/srv/other/keep.txt".toList] }) := by
  decide

/-! ### Where the removed path lies -/

theorem splitOnSlash_ne_nil (s : List Char) : splitOnSlash s ≠ [] := by
  cases s with
  | nil => simp [splitOnSlash]
  | cons c cs =>
    by_cases hc : c = '/'
    · simp [splitOnSlash, hc]
    · cases h : splitOnSlash cs <;> simp [splitOnSlash, hc, h]

theorem splitOnSlash_of_no_slash (s : List Char) (hs : ∀ c ∈ s, c ≠ '/') :
    splitOnSlash s = [s] := by
  induction s with
  | nil => rfl
  | cons c cs ih =>
    have hc : c ≠ '/' := hs c (by simp)
    have := ih (fun x hx => hs x (by simp [hx]))
    simp [splitOnSlash, hc, this]

theorem splitOnSlash_append (s t : List Char) (hs : ∀ c ∈ s, c ≠ '/') :
    splitOnSlash (s ++ '/' :: t) = s :: splitOnSlash t := by
  induction s with
  | nil => simp [splitOnSlash]
  | cons c cs ih =>
    have hc : c ≠ '/' := hs c (by simp)
    have := ih (fun x hx => hs x (by simp [hx]))
    simp [splitOnSlash, hc, this]

theorem splitOnSlash_append_any (s t : List Char) :
    splitOnSlash (s ++ '/' :: t) = splitOnSlash s ++ splitOnSlash t := by
  induction s with
  | nil => simp [splitOnSlash]
  | cons c cs ih =>
    by_cases hc : c = '/'
    · simp [splitOnSlash, hc, ih]
    · cases h : splitOnSlash cs with
      | nil => exact absurd h (splitOnSlash_ne_nil cs)
      | cons seg rest => simp [splitOnSlash, hc, ih, h]

theorem splitOnSlash_no_slash (s : List Char) :
    ∀ seg ∈ splitOnSlash s, ∀ c ∈ seg, c ≠ '/' := by
  induction s with
  | nil => simp [splitOnSlash]
  | cons a cs ih =>
    by_cases ha : a = '/'
    · intro seg hseg
      simp only [splitOnSlash, ha, if_true, List.mem_cons] at hseg
      rcases hseg with h | h
      · simp [h]
      · exact ih seg h
    · cases h : splitOnSlash cs with
      | nil => exact absurd h (splitOnSlash_ne_nil cs)
      | cons seg0 rest =>
        rw [h] at ih
        intro seg hseg
        simp only [splitOnSlash, ha, if_false, h, List.mem_cons] at hseg
        rcases hseg with h1 | h1
        · intro c hc
          rw [h1] at hc
          rcases List.mem_cons.mp hc with h2 | h2
          · rw [h2]; exact ha
          · exact ih seg0 (by simp) c h2
        · exact ih seg (by simp [h1])

theorem normalizeStep_entry (kept : List (List Char)) (seg : List Char) (h : IsEntryName seg) :
    normalizeStep false kept seg = seg :: kept := by
  obtain ⟨h1, h2, h3, _⟩ := h
  simp [normalizeStep, h1, h2, h3]

theorem foldl_normalizeStep_entries (segs kept : List (List Char))
    (h : ∀ s ∈ segs, IsEntryName s) :
    segs.foldl (normalizeStep false) kept = segs.reverse ++ kept := by
  induction segs generalizing kept with
  | nil => rfl
  | cons s segs ih =>
    rw [List.foldl_cons, normalizeStep_entry kept s (h s (by simp)),
      ih _ (fun x hx => h x (by simp [hx]))]
    simp

theorem normalizeStep_keeps_entries (kept : List (List Char)) (seg : List Char)
    (hkept : ∀ s ∈ kept, IsEntryName s) (hseg : ∀ c ∈ seg, c ≠ '/') :
    ∀ s ∈ normalizeStep false kept seg, IsEntryName s := by
  unfold normalizeStep
  split
  · exact hkept
  · rename_i h1
    split
    · cases kept with
      | nil => simp
      | cons top rest =>
        simp only
        split
        · simpa using hkept
        · exact fun s hs => hkept s (by simp [hs])
    · rename_i h2
      intro s hs
      rcases List.mem_cons.mp hs with h | h
      · rw [h]
        exact ⟨fun h0 => h1 (Or.inl h0), fun h0 => h1 (Or.inr h0), h2, hseg⟩
      · exact hkept s h

theorem foldl_normalizeStep_keeps_entries (segs kept : List (List Char))
    (hkept : ∀ s ∈ kept, IsEntryName s) (hsegs : ∀ seg ∈ segs, ∀ c ∈ seg, c ≠ '/') :
    ∀ s ∈ segs.foldl (normalizeStep false) kept, IsEntryName s := by
  induction segs generalizing kept with
  | nil => exact hkept
  | cons seg segs ih =>
    rw [List.foldl_cons]
    exact ih _ (normalizeStep_keeps_entries kept seg hkept (hsegs seg (by simp)))
      (fun s hs => hsegs s (by simp [hs]))

theorem intercalate_cons_cons (k k2 : List Char) (K : List (List Char)) :
    List.intercalate ['/'] (k :: k2 :: K) = k ++ '/' :: List.intercalate ['/'] (k2 :: K) := by
  simp [List.intercalate, List.intersperse]

theorem intercalate_concat (K : List (List Char)) (name : List Char) (hK : K ≠ []) :
    List.intercalate ['/'] (K ++ [name]) = List.intercalate ['/'] K ++ '/' :: name := by
  induction K with
  | nil => exact absurd rfl hK
  | cons k K ih =>
    cases K with
    | nil => simp [List.intercalate, List.intersperse]
    | cons k2 K =>
      have := ih (by simp)
      rw [List.cons_append, List.cons_append, intercalate_cons_cons, ← List.cons_append, this,
        intercalate_cons_cons]
      simp

theorem splitOnSlash_intercalate (K : List (List Char)) (hK : K ≠ [])
    (h : ∀ s ∈ K, ∀ c ∈ s, c ≠ '/') :
    splitOnSlash (List.intercalate ['/'] K) = K := by
  induction K with
  | nil => exact absurd rfl hK
  | cons k K ih =>
    cases K with
    | nil =>
      simpa [List.intercalate, List.intersperse] using
        splitOnSlash_of_no_slash k (h k (by simp))
    | cons k2 K =>
      have hrec := ih (by simp) (fun s hs => h s (by simp [List.mem_cons.mp hs]))
      rw [intercalate_cons_cons, splitOnSlash_append _ _ (h k (by simp)), hrec]

theorem intercalate_concat_ne_nil (K : List (List Char)) (name : List Char) (hname : name ≠ []) :
    List.intercalate ['/'] (K ++ [name]) ≠ [] := by
  cases K with
  | nil => simpa [List.intercalate, List.intersperse] using hname
  | cons k K => rw [intercalate_concat _ _ (by simp)]; simp

theorem normalize_append_entry (x name : List Char) (hx : x.head? = some '/')
    (hname : IsEntryName name) :
    normalize (x ++ '/' :: name)
      = '/' :: List.intercalate ['/']
          (((splitOnSlash x).foldl (normalizeStep false) []).reverse ++ [name]) := by
  have hne : x ++ '/' :: name ≠ [] := by simp
  have habs : (x ++ '/' :: name).head? = some '/' := by
    cases x with
    | nil => simp at hx
    | cons c cs => simpa using hx
  have hlast : (x ++ '/' :: name).getLast? ≠ some '/' := by
    intro h
    have h1 : (x ++ '/' :: name).getLast? = name.getLast? := by
      rw [show x ++ '/' :: name = (x ++ ['/']) ++ name by simp]
      exact List.getLast?_append_of_ne_nil _ hname.1
    rw [h1] at h
    exact hname.2.2.2 '/' (List.mem_of_getLast?_eq_some h) rfl
  have hfold : (splitOnSlash (x ++ '/' :: name)).foldl (normalizeStep false) []
      = name :: (splitOnSlash x).foldl (normalizeStep false) [] := by
    rw [splitOnSlash_append_any, splitOnSlash_of_no_slash name hname.2.2.2, List.foldl_append]
    simp [normalizeStep_entry _ _ hname]
  have hres := intercalate_concat_ne_nil
    ((splitOnSlash x).foldl (normalizeStep false) []).reverse name hname.1
  simp only [normalize, hne, habs, hlast, if_false, if_true, decide_True, Bool.not_true, hfold,
    List.reverse_cons, hres]
  simp

theorem join_pair (a b : List Char) (ha : a ≠ []) (hb : b ≠ []) :
    join [a, b] = normalize (a ++ '/' :: b) := by
  simp [join, ha, hb, List.intercalate, List.intersperse]

theorem UPLOADS_DIR_form (cwd : List Char) (hcwd : cwd.head? = some '/') :
    ∃ K : List (List Char), K ≠ [] ∧ (∀ s ∈ K, IsEntryName s)
      ∧ UPLOADS_DIR cwd = '/' :: List.intercalate ['/'] K := by
  have hne : cwd ≠ [] := by
    intro h
    simp [h] at hcwd
  have hup : IsEntryName ['u', 'p', 'l', 'o', 'a', 'd', 's'] :=
    ⟨by decide, by decide, by decide, by decide⟩
  refine ⟨((splitOnSlash cwd).foldl (normalizeStep false) []).reverse
      ++ [['u', 'p', 'l', 'o', 'a', 'd', 's']], by simp, ?_, ?_⟩
  · intro s hs
    rcases List.mem_append.mp hs with h | h
    · exact foldl_normalizeStep_keeps_entries _ _ (by simp) (splitOnSlash_no_slash cwd) s
        (List.mem_reverse.mp h)
    · rw [List.mem_singleton.mp h]
      exact hup
  · rw [UPLOADS_DIR, join_pair _ _ hne (by simp), normalize_append_entry _ _ hcwd hup]

/-- Where the removed path lies: when the working directory is an absolute
path and the basename of the stored `image` names an entry (it is not empty, not `.` and
not `..`), the path handed to `fs.remove` is the upload directory followed
by one separator and that name, which holds no separator: an entry directly
inside the upload directory. -/
theorem imgPath_inside_upload_directory (cwd image : List Char)
    (hcwd : cwd.head? = some '/')
    (h1 : basename image ≠ []) (h2 : basename image ≠ ['.'])
    (h3 : basename image ≠ ['.', '.']) :
    imgPath cwd image = UPLOADS_DIR cwd ++ '/' :: basename image
      ∧ IsEntryName (basename image) := by
  have hb : IsEntryName (basename image) := ⟨h1, h2, h3, basename_ne_slash image⟩
  obtain ⟨K, hK, hentries, hU⟩ := UPLOADS_DIR_form cwd hcwd
  refine ⟨?_, hb⟩
  have hsplit : splitOnSlash ('/' :: List.intercalate ['/'] K) = [] :: K := by
    rw [splitOnSlash, if_pos rfl,
      splitOnSlash_intercalate K hK (fun s hs => (hentries s hs).2.2.2)]
  have hfold : (([] : List Char) :: K).foldl (normalizeStep false) [] = K.reverse := by
    rw [List.foldl_cons]
    have : normalizeStep false [] [] = [] := by simp [normalizeStep]
    rw [this, foldl_normalizeStep_entries K [] hentries]
    simp
  rw [imgPath, hU, join_pair _ _ (by simp) h1, normalize_append_entry _ _ (by simp) hb, hsplit,
    hfold, List.reverse_reverse, intercalate_concat K _ hK]
  simp

/-- Instance of the previous statement on a stored upload path. -/
theorem imgPath_inside_upload_directory_witness :
    imgPath "/srv/app".toList "/uploads/1-abcdef.png".toList
      = UPLOADS_DIR "/srv/app".toList ++ '/' :: "1-abcdef.png".toList :=
  (imgPath_inside_upload_directory "/srv/app".toList "/uploads/1-abcdef.png".toList
    (by decide) (by decide) (by decide) (by decide)).1.trans (by decide)

/-! ### Creating with a photo, then deleting -/

theorem castDraft_ok (now : Nat) (d : ReportDraft) (doc : Report)
    (h : castDraft now d = .ok doc) : doc.image = d.image ∧ doc.id = d.id := by
  unfold castDraft at h
  cases h1 : castString d.description with
  | error e => simp [h1, bind, Except.bind] at h
  | ok description =>
    cases h2 : castNullableNumber d.severity with
    | error e => simp [h1, h2, bind, Except.bind] at h
    | ok severity =>
      cases h3 : castString d.reporter with
      | error e => simp [h1, h2, h3, bind, Except.bind] at h
      | ok reporter =>
        cases h4 : castNumbers d.coordinates with
        | error e => simp [h1, h2, h3, h4, bind, Except.bind] at h
        | ok coordinates =>
          simp only [h1, h2, h3, h4, bind, Except.bind, pure, Except.pure] at h
          injection h with h
          subst h
          exact ⟨rfl, rfl⟩

theorem Report.create_ok (env : Env) (k : Nat) (d : ReportDraft) (doc : Report)
    (h : Report.create env k d = .ok doc) : doc.image = d.image ∧ doc.id = d.id := by
  unfold Report.create at h
  cases h1 : castDraft env.now d with
  | error e => simp [h1, bind, Except.bind] at h
  | ok doc1 =>
    simp only [h1, bind, Except.bind, storeOp] at h
    split at h
    · cases h
    · injection h with h
      subst h
      exact castDraft_ok _ _ _ h1

theorem createReport_unguarded (env : Env) (w : World) (body : CreateBody)
    (file : Option UploadedFile)
    (hg : (body.lat.looseNull || body.lng.looseNull) = false) :
    createReport env w body file
      = tryCatch w ((Report.create env 0 (draftOf env body file)).map fun doc =>
          (⟨201, Body.report doc⟩, { w with reports := w.reports ++ [doc] })) := by
  simp [createReport, hg, draftOf]

theorem postReports_created (cwd : List Char) (env : Env) (w w1 : World) (body : CreateBody)
    (file : IncomingFile) (doc : Report)
    (h : postReports cwd env w body (some file)
      = (Outcome.responded ⟨201, Body.report doc⟩, w1)) :
    doc.image = some (uploadsUrlPrefix ++ storageFilename env.now env.nanoid6 file)
      ∧ doc.id = env.nanoid10
      ∧ w1.reports = w.reports ++ [doc]
      ∧ w1.files = join [UPLOADS_DIR cwd, storageFilename env.now env.nanoid6 file]
          :: w.files.filter
            (fun p => p ≠ join [UPLOADS_DIR cwd, storageFilename env.now env.nanoid6 file]) := by
  by_cases hsz : fileSizeLimit < file.size
  · simp [postReports, uploadSingle, hsz] at h
  by_cases hg : (body.lat.looseNull || body.lng.looseNull) = true
  · simp [postReports, uploadSingle, hsz, createReport, hg, tryCatch] at h
  have hg' : (body.lat.looseNull || body.lng.looseNull) = false := by
    simpa using hg
  simp only [postReports, uploadSingle, hsz, if_false, createReport_unguarded _ _ _ _ hg'] at h
  cases hcreate : Report.create env 0
      (draftOf env body (some ⟨storageFilename env.now env.nanoid6 file⟩)) with
  | error e => simp [hcreate, Except.map, tryCatch] at h
  | ok d =>
    simp only [hcreate, Except.map, tryCatch] at h
    injection h with h1 h2
    injection h1 with h1
    injection h1 with _ h1
    injection h1 with h1
    subst h1 h2
    obtain ⟨himg, hid⟩ := Report.create_ok _ _ _ _ hcreate
    exact ⟨himg, hid, rfl, rfl⟩

theorem storageFilename_form (now : Nat) (nanoid6 : List Char) (file : IncomingFile) :
    storageFilename now nanoid6 file
      = Nat.toDigits 10 now ++ '-' :: nanoid6 ++ extname (file.originalname.getD []) := by
  cases h : file.originalname with
  | none => simp [storageFilename, h]
  | some n =>
    by_cases hn : n = []
    · simp [storageFilename, h, hn]
    · simp [storageFilename, h, hn]

theorem storageFilename_entry (now : Nat) (nanoid6 : List Char) (file : IncomingFile)
    (hid : ∀ c ∈ nanoid6, c ∈ urlAlphabet) :
    IsEntryName (storageFilename now nanoid6 file) := by
  obtain ⟨hne, hslash⟩ := storageFilename_spec now nanoid6 file hid
  have hdash : '-' ∈ storageFilename now nanoid6 file := by
    rw [storageFilename_form]; simp
  refine ⟨hne, ?_, ?_, hslash⟩
  · intro h; rw [h] at hdash; revert hdash; decide
  · intro h; rw [h] at hdash; revert hdash; decide

theorem mem_fsRemove (files : List (List Char)) (p f : List Char)
    (hp : p.getLast? ≠ some '/') :
    f ∈ fsRemove files p ↔ f ∈ files ∧ f ≠ p ∧ (p ++ ['/']).isPrefixOf f = false := by
  simp [fsRemove, isAtOrBelow, hp]

theorem deleteReport_with_image (cwd : List Char) (env : Env) (w : World) (id : List Char)
    (r : Report) (pre post : List Report) (image : List Char)
    (hw : w.reports = pre ++ r :: post) (hpre : ∀ x ∈ pre, x.id ≠ id) (hid : r.id = id)
    (himage : r.image = some image) (hne : image ≠ [])
    (hstore : env.storeFault = none) (hremove : env.removeFault = false) :
    deleteReport cwd env w id
      = (Outcome.responded ⟨200, Body.ok⟩,
          { reports := pre ++ post, files := fsRemove w.files (imgPath cwd image) }) := by
  have hfind : findOne w.reports id = some r := by
    rw [hw]; exact findOne_decomposed pre post r id hpre hid
  have hdel : deleteFirst id w.reports = pre ++ post := by
    rw [hw]; exact deleteFirst_decomposed pre post r id hpre hid
  simp [deleteReport, tryCatch, storeOp, hstore, hfind, hdel, himage, hne, hremove, bind,
    Except.bind, pure, Except.pure]

/-- C6: let a create request with an uploaded image be answered 201 with the
report `doc`.  The file was stored under the generated name
`<time>-<id><ext>` (`Date.now()`, `-`, `nanoid(6)`, the extension of the
original name) at `path.join(UPLOADS_DIR, name)`, which is the upload
directory, a separator and that name; `doc.image` is `"/uploads/"` followed
by the name, whose basename is the name, so the path the delete handler
derives from `doc.image` is the path of the stored file.  Deleting, in any
later state, a report found under its id with that `image` (store answering,
removal succeeding) is answered 200, removes exactly that report from the
collection and removes exactly the stored file (and nothing that is not at
or below its path). -/
theorem delete_removes_uploaded_file (cwd : List Char) (envC envD : Env) (w w1 : World)
    (body : CreateBody) (file : IncomingFile) (doc : Report)
    (hcwd : cwd.head? = some '/')
    (hid : ∀ c ∈ envC.nanoid6, c ∈ urlAlphabet)
    (hcreated : postReports cwd envC w body (some file)
      = (Outcome.responded ⟨201, Body.report doc⟩, w1)) :
    doc.image = some ("/uploads/".toList ++ (Nat.toDigits 10 envC.now ++ '-' :: envC.nanoid6
        ++ extname (file.originalname.getD [])))
      ∧ w1.reports = w.reports ++ [doc]
      ∧ join [UPLOADS_DIR cwd, Nat.toDigits 10 envC.now ++ '-' :: envC.nanoid6
          ++ extname (file.originalname.getD [])]
        = UPLOADS_DIR cwd ++ '/' :: (Nat.toDigits 10 envC.now ++ '-' :: envC.nanoid6
          ++ extname (file.originalname.getD []))
      ∧ UPLOADS_DIR cwd ++ '/' :: (Nat.toDigits 10 envC.now ++ '-' :: envC.nanoid6
          ++ extname (file.originalname.getD [])) ∈ w1.files
      ∧ basename ("/uploads/".toList ++ (Nat.toDigits 10 envC.now ++ '-' :: envC.nanoid6
          ++ extname (file.originalname.getD [])))
        = Nat.toDigits 10 envC.now ++ '-' :: envC.nanoid6 ++ extname (file.originalname.getD [])
      ∧ ∀ (w2 : World) (id : List Char) (r : Report) (pre post : List Report),
          w2.reports = pre ++ r :: post → (∀ x ∈ pre, x.id ≠ id) → r.id = id →
          r.image = doc.image → envD.storeFault = none → envD.removeFault = false →
          ∃ w3 : World,
            deleteReport cwd envD w2 id = (Outcome.responded ⟨200, Body.ok⟩, w3)
              ∧ w3.reports = pre ++ post
              ∧ ∀ f : List Char, f ∈ w3.files ↔
                  f ∈ w2.files
                    ∧ f ≠ UPLOADS_DIR cwd ++ '/' :: (Nat.toDigits 10 envC.now
                        ++ '-' :: envC.nanoid6 ++ extname (file.originalname.getD []))
                    ∧ (UPLOADS_DIR cwd ++ '/' :: (Nat.toDigits 10 envC.now
                        ++ '-' :: envC.nanoid6 ++ extname (file.originalname.getD []))
                        ++ ['/']).isPrefixOf f = false := by
  obtain ⟨himg, _, hreports, hfiles⟩ := postReports_created cwd envC w w1 body file doc hcreated
  have hentry := storageFilename_entry envC.now envC.nanoid6 file hid
  rw [storageFilename_form] at himg hfiles hentry
  generalize Nat.toDigits 10 envC.now ++ '-' :: envC.nanoid6
    ++ extname (file.originalname.getD []) = name at himg hfiles hentry ⊢
  have huploads : uploadsUrlPrefix = "/uploads/".toList := by decide
  rw [huploads] at himg
  have hbase : basename ("/uploads/".toList ++ name) = name :=
    basename_append "/uploads".toList name hentry.1 hentry.2.2.2
  have hpath : imgPath cwd ("/uploads/".toList ++ name) = UPLOADS_DIR cwd ++ '/' :: name := by
    have := (imgPath_inside_upload_directory cwd ("/uploads/".toList ++ name) hcwd
      (by rw [hbase]; exact hentry.1) (by rw [hbase]; exact hentry.2.1)
      (by rw [hbase]; exact hentry.2.2.1)).1
    rw [hbase] at this
    exact this
  have hjoin : join [UPLOADS_DIR cwd, name] = UPLOADS_DIR cwd ++ '/' :: name := by
    rw [← hpath, imgPath, hbase]
  have hlast : (UPLOADS_DIR cwd ++ '/' :: name).getLast? ≠ some '/' := by
    intro h
    have h1 : (UPLOADS_DIR cwd ++ '/' :: name).getLast? = name.getLast? := by
      rw [show UPLOADS_DIR cwd ++ '/' :: name = (UPLOADS_DIR cwd ++ ['/']) ++ name by simp]
      exact List.getLast?_append_of_ne_nil _ hentry.1
    rw [h1] at h
    exact hentry.2.2.2 '/' (List.mem_of_getLast?_eq_some h) rfl
  refine ⟨himg, hreports, hjoin, ?_, hbase, ?_⟩
  · rw [hfiles, hjoin]; simp
  · intro w2 id r pre post hw2 hpre hrid hrimg hstore hremove
    rw [himg] at hrimg
    refine ⟨_, deleteReport_with_image cwd envD w2 id r pre post _ hw2 hpre hrid hrimg
      (by simp) hstore hremove, rfl, ?_⟩
    intro f
    rw [hpath]
    exact mem_fsRemove w2.files _ f hlast

/-- Witness of C6: the photo `road.hole.JPG` is attached to a report created
in the sample collection; later the report is deleted from a state where it
stands between two others. -/
theorem delete_removes_uploaded_file_witness :
    samplePhotoReport.image = some "/uploads/1700000000000-aB3_-z.JPG".toList
      ∧ ∃ w3 : World,
        deleteReport "/srv/app".toList sampleEnv laterWorld "Vq8-xK2_mT".toList
            = (Outcome.responded ⟨200, Body.ok⟩, w3)
          ∧ w3.reports
            = [sampleReport "a" "open" none 10] ++ [sampleReport "c" "wontfix" none 20]
          ∧ "/srv/app/uploads/1700000000000-aB3_-z.JPG".toList ∉ w3.files
          ∧ "/srv/app/index.js".toList ∈ w3.files := by
  have hcreated : postReports "/srv/app".toList sampleEnv sampleWorld sampleBody (some sampleFile)
      = (Outcome.responded ⟨201, Body.report samplePhotoReport⟩,
          { reports := sampleWorld.reports ++ [samplePhotoReport]
            files := ["/srv/app/uploads/1700000000000-aB3_-z.JPG".toList] }) := by
    decide!
  obtain ⟨himg, _, _, _, _, hdelete⟩ :=
    delete_removes_uploaded_file "/srv/app".toList sampleEnv sampleEnv sampleWorld _ sampleBody
      sampleFile samplePhotoReport (by decide) (by decide) hcreated
  obtain ⟨w3, h1, h2, h3⟩ := hdelete laterWorld "Vq8-xK2_mT".toList samplePhotoReport
    [sampleReport "a" "open" none 10] [sampleReport "c" "wontfix" none 20] rfl (by decide) rfl
    rfl rfl rfl
  have hpath : UPLOADS_DIR "/srv/app".toList ++ '/' :: (Nat.toDigits 10 sampleEnv.now
      ++ '-' :: sampleEnv.nanoid6 ++ extname (sampleFile.originalname.getD []))
      = "/srv/app/uploads/1700000000000-aB3_-z.JPG".toList := by decide
  rw [hpath] at h3
  refine ⟨rfl, w3, h1, h2, ?_, ?_⟩
  · intro hmem
    exact ((h3 _).mp hmem).2.1 rfl
  · exact (h3 _).mpr ⟨by decide, by decide, by decide⟩

/-! ### Failures of the store and of the filesystem -/

/-- C9 fails on two requests.  When `fs.remove` rejects during
`DELETE /reports/:id` the rejection is swallowed and the answer is 200
`{ ok: true }`, not 500.  When the store rejects during `GET /reports/:id`
nothing catches the rejection and no response is written. -/
theorem failure_not_answered_500 :
    (deleteReport "/srv/app".toList removeFaultEnv photoWorld "p".toList).1
        = Outcome.responded ⟨200, Body.ok⟩
      ∧ (deleteReport "/srv/app".toList removeFaultEnv photoWorld "p".toList).1
        ≠ Outcome.responded ⟨500, Body.error "internal"⟩
      ∧ (getReport storeFaultEnv sampleWorld "a".toList).1
        = Outcome.uncaught Thrown.storeError
      ∧ (getReport storeFaultEnv sampleWorld "a".toList).1
        ≠ Outcome.responded ⟨500, Body.error "internal"⟩ := by
  decide

/-- What `GET /reports/:id` and `GET /stats` do when the store rejects: they
have no `try`, so the rejection leaves the handler uncaught and no response
is written. -/
theorem unguarded_handlers_leak (env : Env) (w : World) (id : List Char) (k : Nat)
    (hk : k < 4) :
    (env.storeFault = some 0 → getReport env w id = (Outcome.uncaught Thrown.storeError, w))
      ∧ (env.storeFault = some k → stats env w = (Outcome.uncaught Thrown.storeError, w)) := by
  constructor
  · intro h
    simp [getReport, noCatch, storeOp, h, bind, Except.bind]
  · intro h
    have hk' : k = 0 ∨ k = 1 ∨ k = 2 ∨ k = 3 := by omega
    rcases hk' with rfl | rfl | rfl | rfl <;>
      simp [stats, noCatch, storeOp, h, bind, Except.bind, pure, Except.pure]

theorem findPage_fault (env : Env) (k : Nat) (rs : List Report) (skip limit : JsNum)
    (h : env.storeFault = some k) :
    findPage env k rs skip limit = .error Thrown.storeError := by
  unfold findPage
  split <;> simp [storeOp, h]

theorem Report.create_fault (env : Env) (k : Nat) (d : ReportDraft)
    (h : env.storeFault = some k) : ∃ e, Report.create env k d = .error e := by
  unfold Report.create
  cases h1 : castDraft env.now d with
  | error e => exact ⟨e, by simp [bind, Except.bind]⟩
  | ok doc => exact ⟨Thrown.storeError, by simp [bind, Except.bind, storeOp, h]⟩

theorem createReport_fault (env : Env) (w : World) (body : CreateBody)
    (file : Option UploadedFile)
    (h1 : body.lat.looseNull = false) (h2 : body.lng.looseNull = false)
    (h : env.storeFault = some 0) :
    createReport env w body file = (Outcome.responded ⟨500, Body.error "internal"⟩, w) := by
  obtain ⟨e, he⟩ := Report.create_fault env 0 (draftOf env body file) h
  rw [createReport_unguarded env w body file (by simp [h1, h2]), he]
  rfl

/-- C9 as the guarded handlers have it: in `POST /reports`, `GET /reports`,
`PUT /reports/:id`, `DELETE /reports/:id` and `GET /near`, a store operation
that rejects is answered 500 with `{ error: "internal" }`; the report
collection and the files are left as they were before the request, except
that the file the upload middleware wrote for a create request stays.  A
rejection of `fs.remove` in `DELETE /reports/:id` is swallowed: the report
is removed from the collection, the files stay and the answer is 200
`{ ok: true }`. -/
theorem guarded_handlers_answer_500
    (near : List Report → JsNum → JsNum → JsNum → List Report)
    (cwd : List Char) (env : Env) (w : World) (id : List Char) :
    (∀ (body : CreateBody) (file : Option UploadedFile),
        body.lat.looseNull = false → body.lng.looseNull = false → env.storeFault = some 0 →
        createReport env w body file = (Outcome.responded ⟨500, Body.error "internal"⟩, w))
      ∧ (∀ body : CreateBody,
        body.lat.looseNull = false → body.lng.looseNull = false → env.storeFault = some 0 →
        postReports cwd env w body none = (Outcome.responded ⟨500, Body.error "internal"⟩, w))
      ∧ (∀ (body : CreateBody) (file : IncomingFile), file.size ≤ fileSizeLimit →
        body.lat.looseNull = false → body.lng.looseNull = false → env.storeFault = some 0 →
        postReports cwd env w body (some file)
          = (Outcome.responded ⟨500, Body.error "internal"⟩,
              { reports := w.reports
                files := join [UPLOADS_DIR cwd, storageFilename env.now env.nanoid6 file]
                  :: w.files.filter (fun p =>
                    p ≠ join [UPLOADS_DIR cwd, storageFilename env.now env.nanoid6 file]) }))
      ∧ (∀ q : ListQuery, env.storeFault = some 0 ∨ env.storeFault = some 1 →
        listReports env w q = (Outcome.responded ⟨500, Body.error "internal"⟩, w))
      ∧ (∀ body : UpdateBody, env.storeFault = some 0 →
        updateReport env w id body = (Outcome.responded ⟨500, Body.error "internal"⟩, w))
      ∧ (∀ (body : UpdateBody) (r : Report), findOne w.reports id = some r →
        env.storeFault = some 1 →
        updateReport env w id body = (Outcome.responded ⟨500, Body.error "internal"⟩, w))
      ∧ (env.storeFault = some 0 →
        deleteReport cwd env w id = (Outcome.responded ⟨500, Body.error "internal"⟩, w))
      ∧ (∀ q : NearQuery, q.lat.looseNull = false → q.lng.looseNull = false →
        env.storeFault = some 0 →
        nearReports near env w q = (Outcome.responded ⟨500, Body.error "internal"⟩, w))
      ∧ (∀ (r : Report) (pre post : List Report) (image : List Char),
        w.reports = pre ++ r :: post → (∀ x ∈ pre, x.id ≠ id) → r.id = id →
        r.image = some image → image ≠ [] → env.storeFault = none → env.removeFault = true →
        deleteReport cwd env w id
          = (Outcome.responded ⟨200, Body.ok⟩, { reports := pre ++ post, files := w.files })) := by
  refine ⟨?_, ?_, ?_, ?_, ?_, ?_, ?_, ?_, ?_⟩
  · intro body file h1 h2 h
    exact createReport_fault env w body file h1 h2 h
  · intro body h1 h2 h
    simp only [postReports, uploadSingle]
    exact createReport_fault env w body none h1 h2 h
  · intro body file hsize h1 h2 h
    have hsz : ¬ fileSizeLimit < file.size := Nat.not_lt.mpr hsize
    simp only [postReports, uploadSingle, hsz, if_false]
    exact createReport_fault env _ body _ h1 h2 h
  · intro q h
    rcases h with h | h
    · simp [listReports, tryCatch, storeOp, h, bind, Except.bind]
    · simp [listReports, tryCatch, storeOp, h, findPage_fault env 1 _ _ _ h, bind, Except.bind]
  · intro body h
    simp [updateReport, tryCatch, storeOp, h, bind, Except.bind]
  · intro body r hfind h
    cases happly : applyUpdate env.now body r with
    | error e =>
      simp [updateReport, tryCatch, storeOp, h, hfind, happly, bind, Except.bind]
    | ok r' =>
      simp [updateReport, tryCatch, storeOp, h, hfind, happly, bind, Except.bind]
  · intro h
    simp [deleteReport, tryCatch, storeOp, h, bind, Except.bind]
  · intro q h1 h2 h
    simp [nearReports, tryCatch, storeOp, h, h1, h2, Except.map]
  · intro r pre post image hw hpre hid himage hne h hrm
    have hfind : findOne w.reports id = some r := by
      rw [hw]; exact findOne_decomposed pre post r id hpre hid
    have hdel : deleteFirst id w.reports = pre ++ post := by
      rw [hw]; exact deleteFirst_decomposed pre post r id hpre hid
    simp [deleteReport, tryCatch, storeOp, h, hfind, hdel, himage, hne, hrm, bind, Except.bind,
      pure, Except.pure]

/-- Witness of C9 as amended: the store rejects a listing; it rejects the
insertion of a create request with a photo, whose file stays; and
`fs.remove` rejects during a deletion. -/
theorem guarded_handlers_answer_500_witness :
    listReports storeFaultEnv sampleWorld ⟨JsVal.undefined, JsVal.undefined⟩
        = (Outcome.responded ⟨500, Body.error "internal"⟩, sampleWorld)
      ∧ postReports "/srv/app".toList storeFaultEnv sampleWorld sampleBody (some sampleFile)
        = (Outcome.responded ⟨500, Body.error "internal"⟩,
            { sampleWorld with
              files := ["/srv/app/uploads/1700000000000-aB3_-z.JPG".toList] })
      ∧ deleteReport "/srv/app".toList removeFaultEnv photoWorld "p".toList
        = (Outcome.responded ⟨200, Body.ok⟩, { photoWorld with reports := [] }) := by
  have h := guarded_handlers_answer_500 (fun rs _ _ _ => rs) "/srv/app".toList storeFaultEnv
    sampleWorld "a".toList
  have h' := guarded_handlers_answer_500 (fun rs _ _ _ => rs) "/srv/app".toList removeFaultEnv
    photoWorld "p".toList
  refine ⟨h.2.2.2.1 ⟨JsVal.undefined, JsVal.undefined⟩ (Or.inl rfl), ?_, ?_⟩
  · exact (h.2.2.1 sampleBody sampleFile (by decide) (by decide) (by decide) rfl).trans
      (by decide)
  · exact h'.2.2.2.2.2.2.2.2 (sampleReport "p" "open" (some "/uploads/1-abcdef.png") 10) [] []
      "/uploads/1-abcdef.png".toList rfl (by decide) rfl rfl (by decide) rfl rfl

end FixMyRoad
